import Mathlib

/-!
Shallow embedding of the core of the CAAS cleaning-services backend
(`app/services/booking_service.py`, `app/services/job_assignment_service.py`,
`app/api/v1/contractors.py`, `app/repositories/booking_repository.py`,
`app/models/bookings_simple.py`) together with proofs settling the frozen
claims about its specification.

Modelling conventions:
* Firestore documents are Lean structures; collections are lists; a document
  id is the `booking_id` / `uid` / rejection key stored in the document.
* Statuses, roles and payment statuses are the raw strings the code compares.
* A stored sub-dictionary that may be malformed (the code reads them with
  `.get` and catches exceptions) is wrapped in `Raw`; `Raw.corrupt` stands
  for a stored value that is not a dictionary, so that any field access on
  it raises.
* Python exceptions are modelled with `Except Unit`; every route/service
  entry point is a total function obtained from its `Except` core by the
  same catch-all the source uses.
* `datetime` values are modelled as minutes; every comparison the embedded
  code performs is between datetimes sharing one calendar date, so
  minutes-of-day are a faithful coordinate.  `strptime` is modelled by
  explicit validating parsers.
* Monetary amounts and distances are exact rationals.
-/

namespace CAAS

/-! ### Service types and prices (`booking_service.py`) -/

inductive ServiceType
  | regular
  | deep
  | move_in
  | move_out
  | one_time
deriving DecidableEq, Repr

/-- String value of a `ServiceType`, as stored in booking documents. -/
def ServiceType.str : ServiceType → String
  | .regular => "regular"
  | .deep => "deep"
  | .move_in => "move_in"
  | .move_out => "move_out"
  | .one_time => "one_time"

/-- Conversion `ServiceType(s)` from a raw string; `none` models the
`ValueError` raised on an unknown value. -/
def serviceTypeOfString (s : String) : Option ServiceType :=
  if s = "regular" then some .regular
  else if s = "deep" then some .deep
  else if s = "move_in" then some .move_in
  else if s = "move_out" then some .move_out
  else if s = "one_time" then some .one_time
  else none

/-- Base hourly rates table of `BookingService._calculate_price` (GBP). -/
def rates : ServiceType → ℚ
  | .regular => 25
  | .deep => 35
  | .move_in => 40
  | .move_out => 40
  | .one_time => 30

/-- Python `round(x, 2)` on an exact rational: round half to even at the
second decimal. -/
def round2 (q : ℚ) : ℚ :=
  let s := q * 100
  let f := ⌊s⌋
  let r := s - f
  let n : ℤ :=
    if r < 1/2 then f
    else if 1/2 < r then f + 1
    else if f % 2 = 0 then f else f + 1
  (n : ℚ) / 100

/-- Embedding of `BookingService._calculate_price`. -/
def calculate_price (service_type : ServiceType) (duration : ℕ) : ℚ :=
  let base_rate := rates service_type
  let base_rate :=
    if duration ≥ 6 then base_rate * 0.9
    else if duration ≥ 4 then base_rate * 0.95
    else base_rate
  round2 (base_rate * duration)

/-- Discount factor as the specification words it: 1.0 below 4 hours,
0.95 for 4–5 hours, 0.9 from 6 hours. -/
def discountFactor (duration : ℕ) : ℚ :=
  if duration < 4 then 1
  else if duration ≤ 5 then 0.95
  else 0.9

/-- Price formula as the specification words it. -/
def specPrice (service_type : ServiceType) (duration : ℕ) : ℚ :=
  round2 (rates service_type * duration * discountFactor duration)

/-! ### String primitives

Python string operations are modelled character-wise over `String.data`
(the split, the numeric field parse, `upper()` for the ASCII range a
UK postcode uses, slicing and length). -/

/-- Split a character list on a separator character (`str.split(sep)` /
the field structure `strptime` expects). -/
def splitOnChar (sep : Char) : List Char → List (List Char)
  | [] => [[]]
  | c :: rest =>
    let r := splitOnChar sep rest
    if c = sep then [] :: r
    else
      match r with
      | [] => [[c]]
      | g :: gs => (c :: g) :: gs

/-- Numeric value of a decimal digit character. -/
def digitVal (c : Char) : Option ℕ :=
  if 48 ≤ c.toNat ∧ c.toNat ≤ 57 then some (c.toNat - 48) else none

/-- Parse a non-empty all-digit character list as a natural number
(leading zeros accepted, as `strptime` numeric fields are). -/
def parseNatStr (cs : List Char) : Option ℕ :=
  match cs with
  | [] => none
  | _ => cs.foldl (fun acc c => acc.bind fun n => (digitVal c).map fun d => 10 * n + d)
           (some 0)

/-- Python `str.upper()` (character-wise uppercase). -/
def upperStr (s : String) : String := ⟨s.data.map Char.toUpper⟩

/-- Python slicing `s[:n]` (character-wise prefix). -/
def takeChars (n : ℕ) (s : String) : String := ⟨s.data.take n⟩

/-- Python `len(s)` in characters. -/
def strLen (s : String) : ℕ := s.data.length

/-! ### Parsers for dates and times (`datetime.strptime`) -/

/-- Days in a month, Gregorian rules (what `strptime` accepts for `%d`). -/
def daysInMonth (y m : ℕ) : ℕ :=
  if m = 2 then (if y % 4 = 0 ∧ (y % 100 ≠ 0 ∨ y % 400 = 0) then 29 else 28)
  else if m = 4 ∨ m = 6 ∨ m = 9 ∨ m = 11 then 30
  else 31

/-- Validating parse of a `YYYY-MM-DD` date string (`strptime "%Y-%m-%d"`);
`none` models the raised `ValueError`. -/
def parseDate (s : String) : Option (ℕ × ℕ × ℕ) :=
  match splitOnChar '-' s.data with
  | [ys, ms, ds] =>
    match parseNatStr ys, parseNatStr ms, parseNatStr ds with
    | some y, some m, some d =>
      if 1 ≤ m ∧ m ≤ 12 ∧ 1 ≤ d ∧ d ≤ daysInMonth y m then some (y, m, d) else none
    | _, _, _ => none
  | _ => none

/-- Validating parse of an `HH:MM` time string into minutes of the day
(`strptime "%H:%M"`); `none` models the raised `ValueError`. -/
def parseTime (s : String) : Option ℕ :=
  match splitOnChar ':' s.data with
  | [hs, ms] =>
    match parseNatStr hs, parseNatStr ms with
    | some h, some m => if h < 24 ∧ m < 60 then some (h * 60 + m) else none
    | _, _ => none
  | _ => none

/-- Sakamoto day-of-week table. -/
def sakamotoTable : List ℕ := [0, 3, 2, 5, 0, 3, 5, 1, 4, 6, 2, 4]

/-- Day of week with Monday = 0, as Python `date.weekday()` returns. -/
def pyWeekday (y m d : ℕ) : ℕ :=
  let y' := if m < 3 then y - 1 else y
  let t := sakamotoTable.getD (m - 1) 0
  (y' + y' / 4 + y' / 400 + t + d + 6 - y' / 100 % 7) % 7

/-- Combined parse of `strptime (date ++ " " ++ time) "%Y-%m-%d %H:%M"`.
All datetime comparisons performed by the embedded code are between
datetimes built from one shared date string, so the minutes-of-day
coordinate is returned; the date part is still validated because a bad
date raises before any comparison.  The `Option` arguments model the
Python code passing `None` where a field was absent: interpolating `None`
into the parsed string makes `strptime` raise. -/
def parseDateTime (dateS timeS : Option String) : Option ℕ :=
  match dateS, timeS with
  | some d, some t => if (parseDate d).isSome then parseTime t else none
  | _, _ => none

/-! ### Documents and database state -/

/-- A stored sub-dictionary that may be malformed.  `corrupt` models a
stored value that is not a dictionary: any attribute access on it raises. -/
inductive Raw (α : Type)
  | val (a : α)
  | corrupt
deriving DecidableEq, Repr

/-- Reading a raw stored dictionary; raises on a malformed value. -/
def Raw.get? {α : Type} : Raw α → Except Unit α
  | .val a => .ok a
  | .corrupt => .error ()

/-- Lookup in a string-keyed dictionary (`d.get(k)`). -/
def dget (d : List (String × String)) (k : String) : Option String :=
  (d.find? (fun p => p.1 == k)).map (·.2)

/-- Booking `schedule` sub-dictionary.  A missing key reads as `none`. -/
structure SchedDict where
  date : Option String := none
  time : Option String := none
  timezone : Option String := none
deriving DecidableEq, Repr

/-- Booking `service` sub-dictionary. -/
structure SvcDict where
  type : Option String := none
  duration : Option ℕ := none
  price : Option ℚ := none
  special_requirements : List String := []
deriving DecidableEq, Repr

/-- Booking `payment` sub-dictionary. -/
structure PayDict where
  status : Option String := none
  amount : Option ℚ := none
deriving DecidableEq, Repr

/-- Booking `location` sub-dictionary; the address is a string-keyed
dictionary (`line1`, `city`, `postcode`, ...). -/
structure LocDict where
  address : List (String × String) := []
  instructions : Option String := none
deriving DecidableEq, Repr

/-- A document of the `bookings` collection; its Firestore document id is
`booking_id` (`BookingRepository.create_booking` creates it that way).
Timestamps are seconds.  Top-level patch-through fields never read by the
embedded operations (`rating`, `review`) are omitted. -/
structure BookingDoc where
  booking_id : String
  client_id : String
  cleaner_id : Option String := none
  status : String
  service : Raw SvcDict := .val {}
  schedule : Raw SchedDict := .val {}
  location : Raw LocDict := .val {}
  payment : Raw PayDict := .val {}
  notes : Option String := none
  created_at : ℕ := 0
  updated_at : ℕ := 0
  accepted_at : Option ℕ := none
  auto_assigned_at : Option ℕ := none
  assignment_type : Option String := none
  completed_at : Option ℕ := none
deriving DecidableEq, Repr

/-- One weekday entry of a cleaner's `availability` map as
`is_cleaner_available` reads it: an optional pair of `HH:MM` bounds. -/
structure DayWindow where
  start_time : Option String := none
  end_time : Option String := none
deriving DecidableEq, Repr

/-- The `cleaner_profile` sub-dictionary of a user document, restricted to
the fields the assignment engine reads.  `none` models a missing key (the
code supplies the default at each read site). -/
structure CleanerProfile where
  services_offered : List String := []
  location : List (String × String) := []
  radius_miles : Option ℚ := none
  rating : Option ℚ := none
  total_jobs : Option ℕ := none
  blocked_dates : List String := []
  max_bookings_per_day : Option ℕ := none
  availability : List (ℕ × DayWindow) := []
deriving DecidableEq, Repr

/-- A document of the `users` collection; its document id is `uid`. -/
structure UserDoc where
  uid : String
  role : String
  cleaner_profile : CleanerProfile := {}
deriving DecidableEq, Repr

/-- A document of the `job_rejections` collection.  Its Firestore document
id is the string `cleaner_id ++ "_" ++ booking_id`, exactly the key the
code builds. -/
structure Rejection where
  doc_id : String
  cleaner_id : String
  booking_id : String
  rejected_at : ℕ := 0
  reason : String := "cleaner_declined"
deriving DecidableEq, Repr

/-- The document store: the three collections the core reads and writes. -/
structure DB where
  users : List UserDoc := []
  bookings : List BookingDoc := []
  rejections : List Rejection := []
deriving DecidableEq, Repr

/-- Patch the booking document whose id is `bid` (Firestore
`document(bid).update`). -/
def updateBooking (st : DB) (bid : String) (f : BookingDoc → BookingDoc) : DB :=
  { st with bookings := st.bookings.map (fun b => if b.booking_id == bid then f b else b) }

/-- Date field of a stored booking as a Firestore field filter on
`schedule.date` sees it: a malformed `schedule` value has no `date`
field, so it matches no string. -/
def schedDate (b : BookingDoc) : Option String :=
  match b.schedule with
  | .val s => s.date
  | .corrupt => none

/-! ### Availability checker (`contractors.is_cleaner_available`) -/

/-- Existing bookings of the cleaner on the queried date
(`where('cleaner_id','==',cleaner_id).where('schedule.date','==',date)`).
The filter compares the stored `schedule.date` with the passed value; when
the passed date is `None` nothing with a string date matches (the result
is never consumed in that case because `strptime` raises first). -/
def sameDateBookings (st : DB) (cid : String) (dateS : Option String) : List BookingDoc :=
  st.bookings.filter (fun b => b.cleaner_id == some cid && schedDate b == dateS)

/-- Loop over the cleaner's same-date bookings looking for an interval
overlap, with the early `return False` of the source modelled by the
`true` result.  Reading a malformed `schedule`/`service` or parsing a
missing/invalid stored time raises. -/
def checkConflicts (dateS : Option String) (bstart bend : ℕ) :
    List BookingDoc → Except Unit Bool
  | [] => .ok false
  | b :: rest => do
    let sch ← b.schedule.get?
    let svc ← b.service.get?
    let existing_duration := svc.duration.getD 2
    match parseDateTime dateS sch.time with
    | none => .error ()
    | some existing_start =>
      let existing_end := existing_start + 60 * existing_duration
      if bstart < existing_end ∧ bend > existing_start then .ok true
      else checkConflicts dateS bstart bend rest

/-- Lookup of `availability.get(str(weekday), {})`; `none` stands for the
falsy empty default. -/
def lookupDay (avail : List (ℕ × DayWindow)) (wd : ℕ) : Option DayWindow :=
  (avail.find? (fun p => p.1 == wd)).map (·.2)

/-- Body of `is_cleaner_available` before its catch-all. -/
def isCleanerAvailableCore (st : DB) (cid : String) (dateS timeS : Option String)
    (duration : ℕ) : Except Unit Bool := do
  let existing := sameDateBookings st cid dateS
  match parseDateTime dateS timeS with
  | none => .error ()
  | some bstart =>
    let bend := bstart + 60 * duration
    let conflict ← checkConflicts dateS bstart bend existing
    if conflict then pure false
    else
      match st.users.find? (fun u => u.uid == cid) with
      | none => pure true
      | some u =>
        let p := u.cleaner_profile
        if dateS.any (fun d => p.blocked_dates.contains d) then pure false
        else
          let max_jobs := p.max_bookings_per_day.getD 3
          -- the `existing_bookings` stream was exhausted by the overlap loop
          -- above, so `len(list(existing_bookings))` is always 0
          let jobs_count := 0
          if jobs_count ≥ max_jobs then pure false
          else
            match dateS.bind parseDate with
            | none => .error ()
            | some ymd =>
              match lookupDay p.availability (pyWeekday ymd.1 ymd.2.1 ymd.2.2) with
              | none => pure true
              | some w =>
                match w.start_time, w.end_time with
                | some ws, some we =>
                  match parseDateTime dateS (some ws), parseDateTime dateS (some we) with
                  | some wstart, some wend =>
                    if bstart ≥ wstart ∧ bend ≤ wend then pure true else pure false
                  | _, _ => .error ()
                | _, _ => pure true

/-- Embedding of `contractors.is_cleaner_available`: any exception in the
body is caught and the function returns `True` (fail-open). -/
def is_cleaner_available (st : DB) (cid : String) (dateS timeS : Option String)
    (duration : ℕ) : Bool :=
  match isCleanerAvailableCore st cid dateS timeS duration with
  | .ok b => b
  | .error _ => true

/-- Body of `JobAssignmentService.is_cleaner_available_for_job` before its
catch-all: extracting the schedule and service fields from the raw job
document raises when the stored value is malformed. -/
def isCleanerAvailableForJobCore (st : DB) (cid : String) (job : BookingDoc) :
    Except Unit Bool := do
  let sch ← job.schedule.get?
  let svc ← job.service.get?
  pure (is_cleaner_available st cid sch.date sch.time (svc.duration.getD 2))

/-- Embedding of `JobAssignmentService.is_cleaner_available_for_job`: any
exception is caught and the wrapper returns `False` (fail-closed). -/
def is_cleaner_available_for_job (st : DB) (cid : String) (job : BookingDoc) : Bool :=
  match isCleanerAvailableForJobCore st cid job with
  | .ok b => b
  | .error _ => false

/-! ### Distance estimator (`JobAssignmentService.calculate_distance`) -/

/-- Entries of the `london_distances` dictionary keyed by postcode-prefix
pairs. -/
def london_distances_list : List ((String × String) × ℚ) :=
  [(("SW", "SW"), 4), (("N", "N"), 4), (("E", "E"), 4), (("W", "W"), 4),
   (("NW", "NW"), 4), (("SE", "SE"), 4), (("EC", "EC"), 2), (("WC", "WC"), 2),
   (("SW", "SE"), 8), (("N", "S"), 10), (("E", "W"), 12), (("NW", "SE"), 15)]

/-- The `london_distances` dictionary as a key lookup. -/
def london_distances (p : String × String) : Option ℚ :=
  (london_distances_list.find? (fun e => e.1 == p)).map (·.2)

/-- Two-character prefix (or the single character for a one-character
postcode slice), as the source computes it. -/
def pfxOf (pc : String) : String :=
  if strLen pc ≥ 2 then takeChars 2 pc else takeChars 1 pc

/-- Table lookup with both orderings and the fixed fallback 10
(`london_distances.get((p1, p2), london_distances.get((p2, p1), 10))`). -/
def pairLookup (p1 p2 : String) : ℚ :=
  match london_distances (p1, p2) with
  | some v => v
  | none => (london_distances (p2, p1)).getD 10

/-- Embedding of `JobAssignmentService.calculate_distance`.  A location is
the stored string-keyed dictionary; an empty dictionary is falsy. -/
def calculate_distance (location1 location2 : List (String × String)) : ℚ :=
  if location1 = [] ∨ location2 = [] then 999
  else
    let postcode1 := takeChars 3 (upperStr ((dget location1 "postcode").getD ""))
    let postcode2 := takeChars 3 (upperStr ((dget location2 "postcode").getD ""))
    if postcode1 = "" ∨ postcode2 = "" then 999
    else if postcode1 = postcode2 then 2
    else pairLookup (pfxOf postcode1) (pfxOf postcode2)

/-! ### Candidate ranker (`JobAssignmentService.find_suitable_cleaners`) -/

/-- A ranked candidate as the loop appends it (the full profile copy is
omitted: no embedded operation reads it). -/
structure Candidate where
  uid : String
  distance : ℚ
  rating : ℚ
  total_jobs : ℕ
deriving DecidableEq, Repr

/-- Boolean form of the sort key `(-rating, -total_jobs, distance)`
compared lexicographically. -/
def candLE (a b : Candidate) : Bool :=
  decide (b.rating < a.rating) ||
    (b.rating == a.rating &&
      (decide (b.total_jobs < a.total_jobs) ||
        (b.total_jobs == a.total_jobs && decide (a.distance ≤ b.distance))))

/-- Per-cleaner body of the `find_suitable_cleaners` loop: `none` when the
cleaner is filtered out, otherwise the candidate entry. -/
def suitableEntry (service_type : String) (job_location : List (String × String))
    (u : UserDoc) : Option Candidate :=
  let p := u.cleaner_profile
  if p.services_offered ≠ [] ∧ service_type ∉ p.services_offered then none
  else
    let distance := calculate_distance p.location job_location
    let max_radius := p.radius_miles.getD 15
    if distance > max_radius ∨ distance > 15 then none
    else some { uid := u.uid, distance := distance,
                rating := p.rating.getD 0, total_jobs := p.total_jobs.getD 0 }

/-- Survivors of the filtering passes, in cleaner-pool order. -/
def suitablePool (st : DB) (service_type : String)
    (job_location : List (String × String)) : List Candidate :=
  (st.users.filter (fun u => u.role == "cleaner")).filterMap
    (suitableEntry service_type job_location)

/-- Body of `find_suitable_cleaners` before its catch-all: reading the
service type and the location address from the raw job document may
raise; then filter, sort and truncate to `max_cleaners_to_try = 5`.
Python `list.sort` is a stable sort by the key, and a stable sort by a
total preorder is unique, so the stable `List.insertionSort` computes
exactly its output. -/
def findSuitableCleanersCore (st : DB) (job : BookingDoc) :
    Except Unit (List Candidate) := do
  let svc ← job.service.get?
  let service_type := svc.type.getD ""
  let loc ← job.location.get?
  let job_location := loc.address
  pure ((List.insertionSort (fun a b => candLE a b = true)
    (suitablePool st service_type job_location)).take 5)

/-- Embedding of `JobAssignmentService.find_suitable_cleaners`: any
exception is caught and the empty list is returned. -/
def find_suitable_cleaners (st : DB) (job : BookingDoc) : List Candidate :=
  match findSuitableCleanersCore st job with
  | .ok l => l
  | .error _ => []

/-! ### Booking service operations (`booking_service.py`) -/

/-- Request payload `BookingCreate` after pydantic validation (the route
enforces `1 ≤ duration ≤ 12` and parses date and time, re-serialised as
ISO strings when stored). -/
structure BookingCreate where
  service_type : ServiceType
  date : String
  time : String
  duration : ℕ
  address : List (String × String) := []
  instructions : Option String := none
  special_requirements : List String := []
  notes : Option String := none

/-- The status strings of the `BookingStatus` enum in
`bookings_simple.py`; the conversion `BookingStatus(s)` raises on any
other string (in particular on `"cancelled_admin"`, which only
`admin.py` writes). -/
def validStatuses : List String :=
  ["pending", "confirmed", "in_progress", "completed", "cancelled",
   "cancelled_by_client", "cancelled_by_cleaner"]

/-- The booking document dictionary `create_booking` builds. -/
def newBookingDoc (client_id : String) (data : BookingCreate) (new_id : String)
    (now : ℕ) : BookingDoc :=
  let price := calculate_price data.service_type data.duration
  { booking_id := new_id
    client_id := client_id
    cleaner_id := none
    status := "pending"
    service := .val { type := some data.service_type.str,
                      duration := some data.duration,
                      price := some price,
                      special_requirements := data.special_requirements }
    schedule := .val { date := some data.date, time := some data.time,
                       timezone := some "Europe/London" }
    location := .val { address := data.address,
                       instructions := data.instructions }
    payment := .val { status := some "pending", amount := some price }
    notes := data.notes
    created_at := now
    updated_at := now }

/-- Embedding of `BookingService.create_booking`.  The generated uuid and
the clock are explicit arguments.  Returns the created id (or `None`) and
the resulting store. -/
def create_booking (st : DB) (client_id : String) (data : BookingCreate)
    (new_id : String) (now : ℕ) : Option String × DB :=
  match st.users.find? (fun u => u.uid == client_id) with
  | none => (none, st)
  | some client =>
    if client.role ≠ "client" then (none, st)
    else
      (some new_id,
       { st with bookings := st.bookings ++ [newBookingDoc client_id data new_id now] })

/-- Embedding of `BookingService.get_booking_by_id` with its access
control: a client sees only their own booking, a cleaner only a booking
assigned to them, any other role everything. -/
def get_booking_by_id (st : DB) (bid uid role : String) : Option BookingDoc :=
  match st.bookings.find? (fun b => b.booking_id == bid) with
  | none => none
  | some b =>
    if role == "client" && b.client_id != uid then none
    else if role == "cleaner" && b.cleaner_id != some uid then none
    else some b

/-- Update payload `BookingUpdate` (`exclude_none` semantics: a `none`
field is absent from the patch).  The `instructions` and
`special_requirements` fields are accepted by the source but land as
top-level patch keys never read back by any embedded operation, so they
are omitted here. -/
structure BookingUpdate where
  date : Option String := none
  time : Option String := none
  duration : Option ℕ := none
  notes : Option String := none

/-- Schedule-merge step of `BookingService.update_booking`: when a date or
time is supplied, the stored `schedule` dictionary is read (raising on a
malformed value) and merged. -/
def schedStep (b : BookingDoc) (upd : BookingUpdate) : Option BookingDoc :=
  if upd.date.isSome ∨ upd.time.isSome then
    match b.schedule with
    | .corrupt => none
    | .val sch =>
      let sch' := { sch with date := upd.date.orElse (fun _ => sch.date),
                             time := upd.time.orElse (fun _ => sch.time) }
      some { b with schedule := Raw.val sch' }
  else some b

/-- Duration step of `BookingService.update_booking`: a new duration
recomputes the price from the stored service type (`ServiceType(...)`
raising on an unknown or missing value) and rewrites both the service
price and the payment amount. -/
def durStep (b1 : BookingDoc) (upd : BookingUpdate) : Option BookingDoc :=
  match upd.duration with
  | none => some b1
  | some d =>
    match b1.service, b1.payment with
    | .val svc, .val pay =>
      match serviceTypeOfString (svc.type.getD "") with
      | none => none
      | some sty =>
        let new_price := calculate_price sty d
        let svc' := { svc with duration := some d, price := some new_price }
        let pay' := { pay with amount := some new_price }
        some { b1 with service := Raw.val svc', payment := Raw.val pay' }
    | _, _ => none

/-- Document produced by a successful `BookingService.update_booking`
patch of booking `b`; `none` models an exception raised while building
the patch (malformed stored sub-dictionary, unknown stored service type),
which the catch-all turns into a `False` result with no write.  The
repository stamps `updated_at`. -/
def updatePatch (b : BookingDoc) (upd : BookingUpdate) (now : ℕ) :
    Option BookingDoc :=
  (schedStep b upd).bind fun b1 =>
    (durStep b1 upd).map fun b2 =>
      { b2 with
        notes := match upd.notes with | some n => some n | none => b2.notes,
        updated_at := now }

/-- Embedding of `BookingService.update_booking`: only the owner (per
`get_booking_by_id`) may update, only while the booking is `pending`; a
duration change recomputes the service price and the payment amount. -/
def update_booking (st : DB) (bid uid role : String) (upd : BookingUpdate)
    (now : ℕ) : Bool × DB :=
  match get_booking_by_id st bid uid role with
  | none => (false, st)
  | some b =>
    if b.status ≠ "pending" then (false, st)
    else
      match updatePatch b upd now with
      | none => (false, st)
      | some b' => (true, updateBooking st bid (fun _ => b'))

/-- Embedding of `BookingService.cancel_booking`.  The
`BookingStatus(...)` conversion raises on a status string outside the
enum (caught, yielding `False`); the guard list is only
`[COMPLETED, CANCELLED]`; the cancelled variant is chosen by the caller
role, any non-client non-cleaner role yielding plain `"cancelled"`. -/
def cancel_booking (st : DB) (bid uid role : String) (now : ℕ) : Bool × DB :=
  match get_booking_by_id st bid uid role with
  | none => (false, st)
  | some b =>
    if ¬ validStatuses.contains b.status then (false, st)
    else if b.status = "completed" ∨ b.status = "cancelled" then (false, st)
    else
      let new_status :=
        if role == "client" then "cancelled_by_client"
        else if role == "cleaner" then "cancelled_by_cleaner"
        else "cancelled"
      (true, updateBooking st bid (fun bb =>
        { bb with status := new_status, updated_at := now }))

/-! ### Manual accept / reject / complete (`contractors.py`) -/

inductive AcceptResult
  | notFound
  | noLongerAvailable
  | internalError
  | accepted (final_status : String)
deriving DecidableEq, Repr

/-- Embedding of `contractors.accept_job`.  The booking must still be
`pending` and unassigned; the availability re-check runs next; the
payment coupling sets `confirmed` only when the payment sub-record shows
`succeeded` (the dead `status == 'paid'` disjunct is kept verbatim);
the cleaner's stale rejection record, if any, is deleted.  Notification
dispatch has no store effect and is omitted. -/
def accept_job (st : DB) (booking_id cleaner_uid : String) (now : ℕ) :
    AcceptResult × DB :=
  match st.bookings.filter (fun b =>
      b.booking_id == booking_id && b.status == "pending" && b.cleaner_id == none) with
  | [] => (.notFound, st)
  | b :: _ =>
    match b.schedule.get?, b.service.get? with
    | .ok sch, .ok svc =>
      let duration := svc.duration.getD 2
      if ¬ is_cleaner_available st cleaner_uid sch.date sch.time duration then
        (.noLongerAvailable, st)
      else
        match b.payment.get? with
        | .error _ => (.internalError, st)
        | .ok pay =>
          let is_paid := pay.status == some "succeeded" || b.status == "paid"
          let st1 := updateBooking st booking_id (fun bb =>
            { bb with cleaner_id := some cleaner_uid, updated_at := now,
                      accepted_at := some now,
                      status := if is_paid then "confirmed" else bb.status })
          let key := cleaner_uid ++ "_" ++ booking_id
          let st2 := { st1 with
            rejections := st1.rejections.filter (fun r => r.doc_id ≠ key) }
          (.accepted (if is_paid then "confirmed" else "pending"), st2)
    | _, _ => (.internalError, st)

inductive RejectResult
  | notFound
  | alreadyRejected
  | rejected
deriving DecidableEq, Repr

/-- Embedding of `contractors.reject_job`: the booking must still be
`pending` (any assignee); a second rejection is answered with a success
message and no write; otherwise one rejection record is created under the
document id `cleaner_uid ++ "_" ++ booking_id`. -/
def reject_job (st : DB) (booking_id cleaner_uid : String) (now : ℕ) :
    RejectResult × DB :=
  match st.bookings.filter (fun b =>
      b.booking_id == booking_id && b.status == "pending") with
  | [] => (.notFound, st)
  | _ :: _ =>
    let key := cleaner_uid ++ "_" ++ booking_id
    if st.rejections.any (fun r => r.doc_id == key) then (.alreadyRejected, st)
    else
      (.rejected, { st with rejections := st.rejections ++
        [{ doc_id := key, cleaner_id := cleaner_uid, booking_id := booking_id,
           rejected_at := now, reason := "cleaner_declined" }] })

inductive CompleteResult
  | notFound
  | badStatus (s : String)
  | completedOk
deriving DecidableEq, Repr

/-- Embedding of `contractors.complete_job`: the booking must be assigned
to the calling cleaner and be `confirmed` or `in_progress`; completion
stamps `completed_at`. -/
def complete_job (st : DB) (booking_id cleaner_uid : String) (now : ℕ) :
    CompleteResult × DB :=
  match st.bookings.filter (fun b =>
      b.booking_id == booking_id && b.cleaner_id == some cleaner_uid) with
  | [] => (.notFound, st)
  | b :: _ =>
    if b.status ≠ "confirmed" ∧ b.status ≠ "in_progress" then
      (.badStatus b.status, st)
    else
      (.completedOk, updateBooking st booking_id (fun bb =>
        { bb with status := "completed", completed_at := some now,
                  updated_at := now }))

/-! ### Auto-assignment orchestrator (`job_assignment_service.py`) -/

/-- The booking patch `auto_assign_job` writes on a successful
assignment. -/
def assignPatch (cid : String) (is_paid : Bool) (now : ℕ) (bb : BookingDoc) :
    BookingDoc :=
  { bb with cleaner_id := some cid, updated_at := now,
            auto_assigned_at := some now, assignment_type := some "auto",
            status := if is_paid then "confirmed" else bb.status }

/-- Candidate loop of `auto_assign_job`: skip a candidate holding a
rejection record (defensive re-check), skip an unavailable candidate,
assign to the first remaining one.  Reading a malformed `payment`
sub-dictionary of the job raises (caught by the `auto_assign_job`
catch-all). -/
def tryCandidates (st : DB) (booking_id : String) (job : BookingDoc) (now : ℕ) :
    List Candidate → Except Unit (Bool × DB)
  | [] => .ok (false, st)
  | c :: rest =>
    let key := c.uid ++ "_" ++ booking_id
    if st.rejections.any (fun r => r.doc_id == key) then
      tryCandidates st booking_id job now rest
    else if is_cleaner_available_for_job st c.uid job then do
      let pay ← job.payment.get?
      let is_paid := pay.status == some "succeeded" || job.status == "paid"
      .ok (true, updateBooking st booking_id (assignPatch c.uid is_paid now))
    else tryCandidates st booking_id job now rest

/-- Embedding of `JobAssignmentService.auto_assign_job`: rank, then try
candidates in order; any exception is caught and reported as a `False`
(non-assigned) outcome with no write.  `job` is the streamed document,
passed alongside its id exactly as the source does; notification dispatch
has no store effect and is omitted. -/
def auto_assign_job (st : DB) (booking_id : String) (job : BookingDoc)
    (now : ℕ) : Bool × DB :=
  let suitable := find_suitable_cleaners st job
  if suitable.isEmpty then (false, st)
  else
    match tryCandidates st booking_id job now suitable with
    | .ok r => r
    | .error _ => (false, st)

/-- Summary statistics of one auto-assignment sweep. -/
structure SweepStats where
  jobs_processed : ℕ
  jobs_assigned : ℕ
  jobs_failed : ℕ
deriving DecidableEq, Repr

/-- Loop body of `process_pending_jobs` over the streamed stale jobs: each
job counts as processed, then as assigned or failed according to the
`auto_assign_job` outcome; the store evolves across iterations. -/
def sweepLoop (now : ℕ) : List BookingDoc → DB → SweepStats → SweepStats × DB
  | [], st, stats => (stats, st)
  | job :: rest, st, stats =>
    let stats1 := { stats with jobs_processed := stats.jobs_processed + 1 }
    let (assigned, st') := auto_assign_job st job.booking_id job now
    let stats2 :=
      if assigned then { stats1 with jobs_assigned := stats1.jobs_assigned + 1 }
      else { stats1 with jobs_failed := stats1.jobs_failed + 1 }
    sweepLoop now rest st' stats2

/-- The stale query of the sweep: `pending`, unassigned, created before
`now` minus the 2-hour timeout (`assignment_timeout_hours = 2`,
timestamps in seconds). -/
def stalePending (st : DB) (now : ℕ) : List BookingDoc :=
  st.bookings.filter (fun b =>
    b.status == "pending" && b.cleaner_id == none && b.created_at < now - 7200)

/-- Embedding of `JobAssignmentService.process_pending_jobs`. -/
def process_pending_jobs (st : DB) (now : ℕ) : SweepStats × DB :=
  sweepLoop now (stalePending st now) st ⟨0, 0, 0⟩

/-! ### Helper accessors and lemmas -/

/-- Stored service price of a booking document, when readable. -/
def svcPrice (b : BookingDoc) : Option ℚ :=
  match b.service with
  | .val s => s.price
  | .corrupt => none

/-- Stored payment amount of a booking document, when readable. -/
def payAmount (b : BookingDoc) : Option ℚ :=
  match b.payment with
  | .val p => p.amount
  | .corrupt => none

/-- Stored payment status of a booking document, when readable. -/
def payStatus (b : BookingDoc) : Option String :=
  match b.payment with
  | .val p => p.status
  | .corrupt => none

/-- The embedded `_calculate_price` agrees with the specification formula
`round(baseRate * duration * discountFactor duration, 2)` at every
duration. -/
lemma calculate_price_eq_specPrice (t : ServiceType) (d : ℕ) :
    calculate_price t d = specPrice t d := by
  simp only [calculate_price, specPrice, discountFactor]
  by_cases h6 : d ≥ 6
  · rw [if_pos h6, if_neg (by omega : ¬ d < 4), if_neg (by omega : ¬ d ≤ 5)]
    congr 1; ring
  · by_cases h4 : d ≥ 4
    · rw [if_neg h6, if_pos h4, if_neg (by omega : ¬ d < 4), if_pos (by omega : d ≤ 5)]
      congr 1; ring
    · rw [if_neg h6, if_neg h4, if_pos (by omega : d < 4)]
      congr 1; ring

lemma schedStep_service_payment {b b1 : BookingDoc} {upd : BookingUpdate}
    (h : schedStep b upd = some b1) :
    b1.service = b.service ∧ b1.payment = b.payment := by
  unfold schedStep at h
  split at h
  · cases hs : b.schedule with
    | corrupt => rw [hs] at h; cases h
    | val sch => rw [hs] at h; cases h; simp [hs]
  · cases h; exact ⟨rfl, rfl⟩

lemma durStep_price {b1 b2 : BookingDoc} {upd : BookingUpdate} {d : ℕ}
    {svc : SvcDict} {sty : ServiceType}
    (hd : upd.duration = some d) (hs : b1.service = Raw.val svc)
    (hty : serviceTypeOfString (svc.type.getD "") = some sty)
    (h : durStep b1 upd = some b2) :
    svcPrice b2 = some (calculate_price sty d) ∧
    payAmount b2 = some (calculate_price sty d) := by
  unfold durStep at h
  rw [hd, hs] at h
  cases hp : b1.payment with
  | corrupt => rw [hp] at h; dsimp only at h; cases h
  | val pay =>
    rw [hp] at h
    dsimp only at h
    rw [hty] at h
    cases h
    simp [svcPrice, payAmount]

/-- The concrete `london_distances` table never maps a key pair and its
reverse to different values. -/
lemma ld_table_symm : ∀ e1 ∈ london_distances_list, ∀ e2 ∈ london_distances_list,
    e1.1.1 = e2.1.2 → e1.1.2 = e2.1.1 → e1.2 = e2.2 := by decide

lemma london_both_some {p q : String} {v w : ℚ}
    (h1 : london_distances (p, q) = some v)
    (h2 : london_distances (q, p) = some w) : v = w := by
  unfold london_distances at h1 h2
  obtain ⟨e1, he1, hv⟩ := Option.map_eq_some'.mp h1
  obtain ⟨e2, he2, hw⟩ := Option.map_eq_some'.mp h2
  have m1 := List.mem_of_find?_eq_some he1
  have m2 := List.mem_of_find?_eq_some he2
  have k1 := List.find?_some he1
  have k2 := List.find?_some he2
  rw [beq_iff_eq] at k1 k2
  subst hv
  subst hw
  exact ld_table_symm e1 m1 e2 m2 (by rw [k1, k2]) (by rw [k1, k2])

lemma pairLookup_symm (p q : String) : pairLookup p q = pairLookup q p := by
  unfold pairLookup
  cases h1 : london_distances (p, q) with
  | none =>
    cases h2 : london_distances (q, p) with
    | none => simp [h1, h2]
    | some w => simp [h1, h2]
  | some v =>
    cases h2 : london_distances (q, p) with
    | none => simp [h1, h2]
    | some w => exact london_both_some h1 h2

/-- C10: the auto-assignment distance estimator
`JobAssignmentService.calculate_distance` is symmetric in its two location
arguments: the missing-data sentinel 999, the equal-short-prefix value 2
and the two-ordering table lookup with default 10 are all invariant under
swapping the arguments. -/
theorem C10_calculate_distance_symm (location1 location2 : List (String × String)) :
    calculate_distance location1 location2 = calculate_distance location2 location1 := by
  unfold calculate_distance
  by_cases h0 : location1 = [] ∨ location2 = []
  · rw [if_pos h0, if_pos (Or.symm h0)]
  · rw [if_neg h0, if_neg (fun hc => h0 (Or.symm hc))]
    dsimp only
    by_cases he : takeChars 3 (upperStr ((dget location1 "postcode").getD "")) = "" ∨
        takeChars 3 (upperStr ((dget location2 "postcode").getD "")) = ""
    · rw [if_pos he, if_pos (Or.symm he)]
    · rw [if_neg he, if_neg (fun hc => he (Or.symm hc))]
      by_cases heq : takeChars 3 (upperStr ((dget location1 "postcode").getD "")) =
          takeChars 3 (upperStr ((dget location2 "postcode").getD ""))
      · rw [if_pos heq, if_pos heq.symm]
      · rw [if_neg heq, if_neg (fun hc => heq hc.symm)]
        exact pairLookup_symm _ _

/-- C3: for every booking created, and after every duration update, the
stored service price and the payment amount equal
`round(baseRate(serviceType) * duration * discountFactor(duration), 2)`,
where `discountFactor` is 1.0 below 4 hours, 0.95 for 4–5 hours and 0.9
from 6 hours; in particular a deep-clean booking of duration 4 has price
35 * 4 * 0.95 = 133.0. -/
theorem C3_price_formula :
    (∀ (t : ServiceType) (d : ℕ), calculate_price t d = specPrice t d) ∧
    (∀ st cid data nid now bid st₂,
      create_booking st cid data nid now = (some bid, st₂) →
      ∃ b ∈ st₂.bookings, b.booking_id = bid ∧
        svcPrice b = some (specPrice data.service_type data.duration) ∧
        payAmount b = some (specPrice data.service_type data.duration)) ∧
    (∀ st bid uid role upd d now st₂ b svc sty,
      upd.duration = some d →
      get_booking_by_id st bid uid role = some b →
      b.service = Raw.val svc →
      serviceTypeOfString (svc.type.getD "") = some sty →
      update_booking st bid uid role upd now = (true, st₂) →
      ∀ b' ∈ st₂.bookings, b'.booking_id = bid →
        svcPrice b' = some (specPrice sty d) ∧
        payAmount b' = some (specPrice sty d)) ∧
    calculate_price .deep 4 = 133 := by
  refine ⟨calculate_price_eq_specPrice, ?_, ?_, by norm_num [calculate_price, rates, round2]⟩
  · intro st cid data nid now bid st₂ h
    unfold create_booking at h
    cases hf : st.users.find? (fun u => u.uid == cid) with
    | none => rw [hf] at h; simp at h
    | some client =>
      rw [hf] at h
      dsimp only at h
      by_cases hr : client.role ≠ "client"
      · rw [if_pos hr] at h; simp at h
      · rw [if_neg hr] at h
        rw [Prod.ext_iff] at h
        obtain ⟨hbid, hst⟩ := h
        dsimp only at hbid hst
        have hbid' : nid = bid := by simpa using hbid
        refine ⟨newBookingDoc cid data nid now, ?_, ?_, ?_, ?_⟩
        · rw [← hst]; simp
        · simp [newBookingDoc, hbid']
        · simp [newBookingDoc, svcPrice, calculate_price_eq_specPrice]
        · simp [newBookingDoc, payAmount, calculate_price_eq_specPrice]
  · intro st bid uid role upd d now st₂ b svc sty hd hget hsvc hty hupd b' hb' hid
    unfold update_booking at hupd
    rw [hget] at hupd
    dsimp only at hupd
    by_cases hstat : b.status ≠ "pending"
    · rw [if_pos hstat] at hupd; simp at hupd
    · rw [if_neg hstat] at hupd
      cases hpatch : updatePatch b upd now with
      | none => rw [hpatch] at hupd; simp at hupd
      | some b₂ =>
        rw [hpatch] at hupd
        rw [Prod.ext_iff] at hupd
        obtain ⟨-, hst⟩ := hupd
        dsimp only at hst
        obtain ⟨b1, hb1, hmap⟩ := Option.bind_eq_some.mp hpatch
        obtain ⟨b2, hb2, hb2eq⟩ := Option.map_eq_some'.mp hmap
        obtain ⟨hbsvc, hbpay⟩ := schedStep_service_payment hb1
        have hprice := durStep_price hd (hbsvc.trans hsvc) hty hb2
        have hsvc2 : svcPrice b₂ = some (calculate_price sty d) := by
          rw [← hb2eq]; simpa [svcPrice] using hprice.1
        have hpay2 : payAmount b₂ = some (calculate_price sty d) := by
          rw [← hb2eq]; simpa [payAmount] using hprice.2
        rw [← hst] at hb'
        unfold updateBooking at hb'
        simp only [List.mem_map] at hb'
        obtain ⟨a, ha, haeq⟩ := hb'
        by_cases hcond : a.booking_id == bid
        · rw [if_pos hcond] at haeq
          subst haeq
          rw [calculate_price_eq_specPrice] at hsvc2 hpay2
          exact ⟨hsvc2, hpay2⟩
        · rw [if_neg hcond] at haeq
          subst haeq
          exact absurd hid (by simpa using hcond)

/-- Concrete one-client store used to instantiate the pricing theorem. -/
def stC3 : DB := { users := [{ uid := "u1", role := "client" }] }

/-- Concrete deep-clean four-hour request. -/
def dataC3 : BookingCreate :=
  { service_type := .deep, date := "2025-01-10", time := "10:00", duration := 4 }

/-- Concrete store holding one pending regular booking, for the
duration-update clause. -/
def stC3u : DB :=
  { users := [{ uid := "u1", role := "client" }],
    bookings := [{ booking_id := "b2", client_id := "u1", status := "pending",
                   service := .val { type := some "regular", duration := some 2,
                                     price := some 50 },
                   payment := .val { status := some "pending", amount := some 50 } }] }

/-- Witness instantiating the pricing theorem on a concrete creation and a
concrete duration update. -/
theorem C3_price_formula_witness :
    (∃ b ∈ (create_booking stC3 "u1" dataC3 "b1" 10).2.bookings,
        b.booking_id = "b1" ∧ svcPrice b = some (specPrice .deep 4) ∧
        payAmount b = some (specPrice .deep 4)) ∧
    (∀ b' ∈ (update_booking stC3u "b2" "u1" "client" { duration := some 6 } 20).2.bookings,
        b'.booking_id = "b2" →
        svcPrice b' = some (specPrice .regular 6) ∧
        payAmount b' = some (specPrice .regular 6)) :=
  ⟨C3_price_formula.2.1 stC3 "u1" dataC3 "b1" 10 "b1"
      (create_booking stC3 "u1" dataC3 "b1" 10).2 rfl,
   C3_price_formula.2.2.1 stC3u "b2" "u1" "client" { duration := some 6 } 6 20
      (update_booking stC3u "b2" "u1" "client" { duration := some 6 } 20).2
      { booking_id := "b2", client_id := "u1", status := "pending",
        service := .val { type := some "regular", duration := some 2, price := some 50 },
        payment := .val { status := some "pending", amount := some 50 } }
      { type := some "regular", duration := some 2, price := some 50 }
      .regular rfl rfl rfl rfl rfl⟩

/-! ### C6: the availability overlap test -/

/-- Readability of one stored same-date booking: its `schedule` and
`service` values are dictionaries and its stored time parses against the
queried date. -/
def parsedExistingB (dateS : Option String) (b : BookingDoc) : Bool :=
  match b.schedule, b.service with
  | .val sch, .val _ => (parseDateTime dateS sch.time).isSome
  | _, _ => false

/-- Profile conditions under which none of the non-overlap availability
checks (blocked dates, daily cap, working-hours windows) can reject. -/
def benignProfileB (p : CleanerProfile) (dateS : String) : Bool :=
  !(p.blocked_dates.contains dateS) &&
  (p.max_bookings_per_day.getD 3 != 0) &&
  (match parseDate dateS with
   | some (y, m, d) => (lookupDay p.availability (pyWeekday y m d)).isNone
   | none => true)

/-- Half-open overlap of an existing booking's interval with the candidate
interval `[bstart, bend)` under the test `a.start < b.end && b.start < a.end`. -/
def overlapBody (dateS : Option String) (bstart bend : ℕ) (b : BookingDoc) : Bool :=
  match b.schedule, b.service with
  | .val sch, .val svc =>
    match parseDateTime dateS sch.time with
    | some est => decide (bstart < est + 60 * svc.duration.getD 2 ∧ bend > est)
    | none => false
  | _, _ => false

/-- Overlap-based rejection condition as the specification words it: some
existing same-date booking of the cleaner whose half-open interval meets
the candidate interval. -/
def specOverlapConflict (st : DB) (cid : String) (dateS : String)
    (bstart bend : ℕ) : Bool :=
  (sameDateBookings st cid (some dateS)).any (overlapBody (some dateS) bstart bend)

lemma checkConflicts_wellFormed (dateS : Option String) (bstart bend : ℕ)
    (l : List BookingDoc) (h : ∀ b ∈ l, parsedExistingB dateS b = true) :
    checkConflicts dateS bstart bend l = .ok (l.any (overlapBody dateS bstart bend)) := by
  induction l with
  | nil => rfl
  | cons b rest ih =>
    have hb := h b (List.mem_cons_self b rest)
    unfold parsedExistingB at hb
    cases hs : b.schedule with
    | corrupt => rw [hs] at hb; cases hv : b.service <;> rw [hv] at hb <;> cases hb
    | val sch =>
      cases hv : b.service with
      | corrupt => rw [hs, hv] at hb; cases hb
      | val svc =>
        rw [hs, hv] at hb
        obtain ⟨est, hest⟩ := Option.isSome_iff_exists.mp hb
        unfold checkConflicts
        rw [hs, hv]
        simp only [Raw.get?, bind, Except.bind, hest]
        by_cases hover : bstart < est + 60 * svc.duration.getD 2 ∧ bend > est
        · rw [if_pos hover]
          simp [List.any_cons, overlapBody, hs, hv, hest, hover]
        · rw [if_neg hover]
          rw [ih (fun b hbm => h b (List.mem_cons_of_mem _ hbm))]
          simp [List.any_cons, overlapBody, hs, hv, hest, hover]

/-- Concrete existing booking of cleaner `c1` on 2024-01-15 at the given
start time, lasting two hours. -/
def existingC6 (t : String) : BookingDoc :=
  { booking_id := "e1", client_id := "u1", cleaner_id := some "c1",
    status := "confirmed",
    schedule := .val { date := some "2024-01-15", time := some t },
    service := .val { duration := some 2 } }

/-- Store where `c1` has an existing 12:00–14:00 booking. -/
def stC6a : DB :=
  { users := [{ uid := "c1", role := "cleaner" }], bookings := [existingC6 "12:00"] }

/-- Store where `c1` has an existing 13:00–15:00 booking. -/
def stC6b : DB :=
  { users := [{ uid := "c1", role := "cleaner" }], bookings := [existingC6 "13:00"] }

/-- C6: when the stored data is readable and none of the non-overlap
checks (blocked date, daily cap, working-hours windows) applies, the
availability check rejects exactly when the candidate half-open interval
`[start, start + duration)` overlaps the interval of some existing
booking of that cleaner on the same date, via
`a.start < b.end && b.start < a.end`; concretely a [10:00,13:00)
candidate conflicts with an existing [12:00,14:00) booking and not with
an existing [13:00,15:00) one. -/
theorem C6_availability_overlap :
    (∀ (st : DB) (cid dateS timeS : String) (dur bstart : ℕ),
      parseDateTime (some dateS) (some timeS) = some bstart →
      (∀ b ∈ sameDateBookings st cid (some dateS),
        parsedExistingB (some dateS) b = true) →
      (∀ u ∈ st.users, u.uid = cid →
        benignProfileB u.cleaner_profile dateS = true) →
      (is_cleaner_available st cid (some dateS) (some timeS) dur = false ↔
        specOverlapConflict st cid dateS bstart (bstart + 60 * dur) = true)) ∧
    is_cleaner_available stC6a "c1" (some "2024-01-15") (some "10:00") 3 = false ∧
    is_cleaner_available stC6b "c1" (some "2024-01-15") (some "10:00") 3 = true := by
  refine ⟨?_, by decide, by decide⟩
  intro st cid dateS timeS dur bstart hparse hwf hprof
  have hpd : ∃ ymd, parseDate dateS = some ymd := by
    cases hps : parseDate dateS with
    | some ymd => exact ⟨ymd, rfl⟩
    | none =>
      exfalso
      unfold parseDateTime at hparse
      simp [hps] at hparse
  obtain ⟨ymd, hymd⟩ := hpd
  unfold is_cleaner_available isCleanerAvailableCore
  rw [hparse]
  dsimp only
  rw [checkConflicts_wellFormed (some dateS) bstart (bstart + 60 * dur)
    (sameDateBookings st cid (some dateS)) hwf]
  have hsc : specOverlapConflict st cid dateS bstart (bstart + 60 * dur) =
      (sameDateBookings st cid (some dateS)).any
        (overlapBody (some dateS) bstart (bstart + 60 * dur)) := rfl
  rw [← hsc]
  simp only [bind, Except.bind]
  cases hc : specOverlapConflict st cid dateS bstart (bstart + 60 * dur) with
  | true => simp [pure, Except.pure]
  | false =>
    simp only [show ((false : Bool) = true) ↔ False by simp, iff_false,
      Bool.not_eq_false]
    cases hfind : st.users.find? (fun u => u.uid == cid) with
    | none => simp [pure, Except.pure]
    | some u =>
      have hmem := List.mem_of_find?_eq_some hfind
      have huid : u.uid = cid := by
        have := List.find?_some hfind
        simpa [beq_iff_eq] using this
      have hb := hprof u hmem huid
      unfold benignProfileB at hb
      rw [Bool.and_eq_true, Bool.and_eq_true] at hb
      obtain ⟨⟨hbl, hmax⟩, hav⟩ := hb
      rw [Bool.not_eq_true'] at hbl
      rw [hymd] at hav
      dsimp only at hav
      rw [Option.isNone_iff_eq_none] at hav
      have hmax2 : u.cleaner_profile.max_bookings_per_day.getD 3 ≠ 0 := by
        simpa [bne_iff_ne] using hmax
      have hbl2 : dateS ∉ u.cleaner_profile.blocked_dates := by
        simpa using hbl
      simp [pure, Except.pure, Option.any, hbl2, hymd, hav, Nat.le_zero, hmax2]

/-- Witness instantiating the availability-overlap theorem on the concrete
store with an existing 12:00–14:00 booking and a 10:00 three-hour
candidate. -/
theorem C6_availability_overlap_witness :
    is_cleaner_available stC6a "c1" (some "2024-01-15") (some "10:00") 3 = false ↔
      specOverlapConflict stC6a "c1" "2024-01-15" 600 (600 + 60 * 3) = true :=
  C6_availability_overlap.1 stC6a "c1" "2024-01-15" "10:00" 3 600
    (by decide) (by decide) (by decide)

/-! ### C9: exception handling of the availability check -/

/-- Job document whose stored `schedule` value is malformed (not a
dictionary), so reading it raises. -/
def jobC9 : BookingDoc :=
  { booking_id := "b9", client_id := "u1", status := "pending",
    schedule := .corrupt }

/-- C9 counterexample: an exception inside the auto-assignment
availability wrapper `is_cleaner_available_for_job` (here: a malformed
stored `schedule`) makes the check return unavailable (`False`), not
available — the internal failure does block the offer, contradicting the
claim for this cited function. -/
theorem C9_counterexample :
    isCleanerAvailableForJobCore {} "c1" jobC9 = .error () ∧
    is_cleaner_available_for_job {} "c1" jobC9 = false :=
  ⟨rfl, rfl⟩

/-- C9 amended: an exception in the body of the endpoint availability
check `is_cleaner_available` is caught and yields `True` (fail-open), but
an exception in the body of the auto-assignment wrapper
`is_cleaner_available_for_job` is caught and yields `False`
(fail-closed), so a malformed job document does block auto-assignment
offers. -/
theorem C9_fail_open_inner_fail_closed_wrapper :
    (∀ (st : DB) (cid : String) (dateS timeS : Option String) (dur : ℕ) (e : Unit),
      isCleanerAvailableCore st cid dateS timeS dur = .error e →
      is_cleaner_available st cid dateS timeS dur = true) ∧
    (∀ (st : DB) (cid : String) (job : BookingDoc) (e : Unit),
      isCleanerAvailableForJobCore st cid job = .error e →
      is_cleaner_available_for_job st cid job = false) := by
  constructor
  · intro st cid dateS timeS dur e h
    unfold is_cleaner_available
    rw [h]
  · intro st cid job e h
    unfold is_cleaner_available_for_job
    rw [h]

/-- Witness instantiating the amended fail-open/fail-closed theorem: a
missing date makes the endpoint check error out and report available,
while a malformed schedule makes the wrapper report unavailable. -/
theorem C9_fail_open_inner_fail_closed_wrapper_witness :
    is_cleaner_available {} "c1" none none 2 = true ∧
    is_cleaner_available_for_job {} "c1" jobC9 = false :=
  ⟨C9_fail_open_inner_fail_closed_wrapper.1 {} "c1" none none 2 () rfl,
   C9_fail_open_inner_fail_closed_wrapper.2 {} "c1" jobC9 () rfl⟩

/-! ### C5: the candidate ranker -/

lemma candLE_iff {a b : Candidate} : candLE a b = true ↔
    b.rating < a.rating ∨ (b.rating = a.rating ∧
      (b.total_jobs < a.total_jobs ∨
        (b.total_jobs = a.total_jobs ∧ a.distance ≤ b.distance))) := by
  simp [candLE, Bool.or_eq_true, Bool.and_eq_true, decide_eq_true_eq, beq_iff_eq]

lemma candLE_trans (a b c : Candidate) (hab : candLE a b = true)
    (hbc : candLE b c = true) : candLE a c = true := by
  rw [candLE_iff] at hab hbc ⊢
  rcases hab with h1 | ⟨h1, hab⟩
  · rcases hbc with g1 | ⟨g1, _⟩
    · exact Or.inl (lt_trans g1 h1)
    · exact Or.inl (g1 ▸ h1)
  · rcases hbc with g1 | ⟨g1, hbc⟩
    · exact Or.inl (h1 ▸ g1)
    · refine Or.inr ⟨g1.trans h1, ?_⟩
      rcases hab with h2 | ⟨h2, h3⟩
      · rcases hbc with g2 | ⟨g2, _⟩
        · exact Or.inl (lt_trans g2 h2)
        · exact Or.inl (g2 ▸ h2)
      · rcases hbc with g2 | ⟨g2, g3⟩
        · exact Or.inl (h2 ▸ g2)
        · exact Or.inr ⟨g2.trans h2, le_trans h3 g3⟩

lemma candLE_total (a b : Candidate) : (candLE a b || candLE b a) = true := by
  rw [Bool.or_eq_true, candLE_iff, candLE_iff]
  rcases lt_trichotomy a.rating b.rating with h | h | h
  · exact Or.inr (Or.inl h)
  · rcases lt_trichotomy a.total_jobs b.total_jobs with g | g | g
    · exact Or.inr (Or.inr ⟨h, Or.inl g⟩)
    · rcases le_total a.distance b.distance with hd | hd
      · exact Or.inl (Or.inr ⟨h.symm, Or.inr ⟨g.symm, hd⟩⟩)
      · exact Or.inr (Or.inr ⟨h, Or.inr ⟨g, hd⟩⟩)
    · exact Or.inl (Or.inr ⟨h.symm, Or.inl g⟩)
  · exact Or.inl (Or.inl h)

lemma suitableEntry_some {sty : String} {loc : List (String × String)}
    {u : UserDoc} {c : Candidate} (h : suitableEntry sty loc u = some c) :
    c.uid = u.uid ∧
    c.distance = calculate_distance u.cleaner_profile.location loc ∧
    (u.cleaner_profile.services_offered = [] ∨
      sty ∈ u.cleaner_profile.services_offered) ∧
    c.distance ≤ u.cleaner_profile.radius_miles.getD 15 ∧ c.distance ≤ 15 := by
  unfold suitableEntry at h
  by_cases h1 : u.cleaner_profile.services_offered ≠ [] ∧
      sty ∉ u.cleaner_profile.services_offered
  · rw [if_pos h1] at h; cases h
  · rw [if_neg h1] at h
    dsimp only at h
    by_cases h2 : calculate_distance u.cleaner_profile.location loc >
        u.cleaner_profile.radius_miles.getD 15 ∨
        calculate_distance u.cleaner_profile.location loc > 15
    · rw [if_pos h2] at h; cases h
    · rw [if_neg h2] at h
      cases h
      push_neg at h1 h2
      refine ⟨rfl, rfl, ?_, h2.1, h2.2⟩
      by_cases hso : u.cleaner_profile.services_offered = []
      · exact Or.inl hso
      · exact Or.inr (h1 hso)

/-- Concrete pool: one cleaner in range, plus a stored rejection record
for exactly the (cleaner, booking) pair about to be ranked. -/
def stC5 : DB :=
  { users := [{ uid := "c1", role := "cleaner",
                cleaner_profile := { location := [("postcode", "SW1A 1AA")] } }],
    rejections := [{ doc_id := "c1_b1", cleaner_id := "c1", booking_id := "b1" }] }

/-- Concrete pending job in the same area as the cleaner. -/
def jobC5 : BookingDoc :=
  { booking_id := "b1", client_id := "u1", status := "pending",
    service := .val { type := some "regular", duration := some 2 },
    location := .val { address := [("postcode", "SW1A 2AA")] } }

/-- C5 amended: the candidate ranker excludes cleaners whose non-empty
service allow-list lacks the booking's service type, excludes cleaners
whose estimated distance exceeds `min(cleaner radius, 15)`, sorts the
survivors lexicographically by rating descending, then total jobs
descending, then distance ascending, and returns at most 5 candidates; it
does not consult rejection records (those are re-checked later by the
assignment loop, not by the ranker). -/
theorem C5_ranker_filters_sorts_truncates :
    ∀ (st : DB) (job : BookingDoc) (svc : SvcDict) (loc : LocDict),
      job.service = Raw.val svc → job.location = Raw.val loc →
      (find_suitable_cleaners st job).length ≤ 5 ∧
      List.Pairwise (fun a b => candLE a b = true) (find_suitable_cleaners st job) ∧
      (∀ c ∈ find_suitable_cleaners st job, ∃ u ∈ st.users,
        u.role = "cleaner" ∧ c.uid = u.uid ∧
        c.distance = calculate_distance u.cleaner_profile.location loc.address ∧
        (u.cleaner_profile.services_offered = [] ∨
          (svc.type.getD "") ∈ u.cleaner_profile.services_offered) ∧
        c.distance ≤ min (u.cleaner_profile.radius_miles.getD 15) 15) ∧
      (∃ rest, (find_suitable_cleaners st job ++ rest).Perm
        (suitablePool st (svc.type.getD "") loc.address)) := by
  intro st job svc loc hsvc hloc
  have hfind : find_suitable_cleaners st job =
      (List.insertionSort (fun a b => candLE a b = true)
        (suitablePool st (svc.type.getD "") loc.address)).take 5 := by
    unfold find_suitable_cleaners findSuitableCleanersCore
    rw [hsvc, hloc]
    rfl
  have hsorted : List.Pairwise (fun a b => candLE a b = true)
      (List.insertionSort (fun a b => candLE a b = true)
        (suitablePool st (svc.type.getD "") loc.address)) := by
    haveI : IsTotal Candidate (fun a b => candLE a b = true) := ⟨fun a b => by
      have := candLE_total a b
      rw [Bool.or_eq_true] at this
      exact this⟩
    haveI : IsTrans Candidate (fun a b => candLE a b = true) :=
      ⟨fun a b c hab hbc => candLE_trans a b c hab hbc⟩
    exact List.sorted_insertionSort _ _
  refine ⟨?_, ?_, ?_, ?_⟩
  · rw [hfind]; exact List.length_take_le 5 _
  · rw [hfind]
    exact List.Pairwise.sublist (List.take_sublist 5 _) hsorted
  · intro c hc
    rw [hfind] at hc
    have hms : c ∈ List.insertionSort (fun a b => candLE a b = true)
        (suitablePool st (svc.type.getD "") loc.address) :=
      (List.take_sublist 5 _).subset hc
    have hpool : c ∈ suitablePool st (svc.type.getD "") loc.address :=
      (List.perm_insertionSort _ _).mem_iff.mp hms
    unfold suitablePool at hpool
    obtain ⟨u, hu, hentry⟩ := List.mem_filterMap.mp hpool
    obtain ⟨humem, hurole⟩ := List.mem_filter.mp hu
    obtain ⟨huid, hdist, hsvcok, hrad, h15⟩ := suitableEntry_some hentry
    exact ⟨u, humem, by simpa [beq_iff_eq] using hurole, huid, hdist, hsvcok,
      le_min hrad h15⟩
  · refine ⟨(List.insertionSort (fun a b => candLE a b = true)
      (suitablePool st (svc.type.getD "") loc.address)).drop 5, ?_⟩
    rw [hfind, List.take_append_drop]
    exact List.perm_insertionSort _ _

/-- Witness instantiating the ranker theorem on a concrete pool: one
eligible cleaner survives, the output is sorted, bounded and a
permutation prefix of the survivor pool. -/
theorem C5_ranker_filters_sorts_truncates_witness :
    (find_suitable_cleaners stC5 jobC5).length ≤ 5 ∧
    List.Pairwise (fun a b => candLE a b = true) (find_suitable_cleaners stC5 jobC5) ∧
    (∀ c ∈ find_suitable_cleaners stC5 jobC5, ∃ u ∈ stC5.users,
      u.role = "cleaner" ∧ c.uid = u.uid ∧
      c.distance = calculate_distance u.cleaner_profile.location
        [("postcode", "SW1A 2AA")] ∧
      (u.cleaner_profile.services_offered = [] ∨
        ("regular" : String) ∈ u.cleaner_profile.services_offered) ∧
      c.distance ≤ min (u.cleaner_profile.radius_miles.getD 15) 15) ∧
    (∃ rest, (find_suitable_cleaners stC5 jobC5 ++ rest).Perm
      (suitablePool stC5 "regular" [("postcode", "SW1A 2AA")])) :=
  C5_ranker_filters_sorts_truncates stC5 jobC5
    { type := some "regular", duration := some 2 }
    { address := [("postcode", "SW1A 2AA")] } rfl rfl

/-- C5 counterexample: the ranker returns a cleaner even though a
rejection record for exactly that (cleaner, booking) pair is stored —
the claim's rejection-record exclusion is not performed by the ranker. -/
theorem C5_counterexample :
    (find_suitable_cleaners stC5 jobC5).map Candidate.uid = ["c1"] ∧
    stC5.rejections.any
      (fun r => r.cleaner_id == "c1" && r.booking_id == jobC5.booking_id) = true := by
  constructor
  · rfl
  · rfl

/-! ### C7: the auto-assignment sweep statistics -/

lemma sweepLoop_stats (now : ℕ) (l : List BookingDoc) (st : DB) (stats : SweepStats) :
    (sweepLoop now l st stats).1.jobs_processed = stats.jobs_processed + l.length ∧
    (sweepLoop now l st stats).1.jobs_assigned + (sweepLoop now l st stats).1.jobs_failed =
      stats.jobs_assigned + stats.jobs_failed + l.length := by
  induction l generalizing st stats with
  | nil => simp [sweepLoop]
  | cons job rest ih =>
    unfold sweepLoop
    rcases hassign : auto_assign_job st job.booking_id job now with ⟨assigned, st2⟩
    cases assigned
    · dsimp only
      rw [if_neg (show ¬ ((false : Bool) = true) by simp)]
      obtain ⟨h1, h2⟩ := ih st2
        { jobs_processed := stats.jobs_processed + 1,
          jobs_assigned := stats.jobs_assigned,
          jobs_failed := stats.jobs_failed + 1 }
      constructor
      · rw [h1]; simp only [List.length_cons]; omega
      · rw [h2]; simp only [List.length_cons]; omega
    · dsimp only
      rw [if_pos rfl]
      obtain ⟨h1, h2⟩ := ih st2
        { jobs_processed := stats.jobs_processed + 1,
          jobs_assigned := stats.jobs_assigned + 1,
          jobs_failed := stats.jobs_failed }
      constructor
      · rw [h1]; simp only [List.length_cons]; omega
      · rw [h2]; simp only [List.length_cons]; omega

lemma tryCandidates_all_skip (st : DB) (bid : String) (job : BookingDoc) (now : ℕ)
    (l : List Candidate)
    (h : ∀ c ∈ l,
      st.rejections.any (fun r => r.doc_id == c.uid ++ "_" ++ bid) = true ∨
      is_cleaner_available_for_job st c.uid job = false) :
    tryCandidates st bid job now l = .ok (false, st) := by
  induction l with
  | nil => rfl
  | cons c rest ih =>
    have hrest := ih (fun c' hc' => h c' (List.mem_cons_of_mem _ hc'))
    unfold tryCandidates
    rcases h c (List.mem_cons_self c rest) with hr | hav
    · rw [if_pos hr]
      exact hrest
    · by_cases hrej : st.rejections.any (fun r => r.doc_id == c.uid ++ "_" ++ bid) = true
      · rw [if_pos hrej]
        exact hrest
      · rw [if_neg hrej, if_neg (by rw [hav]; exact Bool.false_ne_true)]
        exact hrest

/-- Concrete sweep store: two assignable stale regular bookings on
different dates, one stale deep booking no cleaner offers, one
regular-only cleaner. -/
def bC7 (bid ty date : String) : BookingDoc :=
  { booking_id := bid, client_id := "u1", status := "pending",
    service := .val { type := some ty, duration := some 2 },
    schedule := .val { date := some date, time := some "10:00" },
    location := .val { address := [("postcode", "SW1A 2AA")] },
    payment := .val { status := some "pending" },
    created_at := 0 }

def stC7 : DB :=
  { users := [{ uid := "c1", role := "cleaner",
                cleaner_profile := { services_offered := ["regular"],
                                     location := [("postcode", "SW1A 1AA")] } }],
    bookings := [bC7 "b1" "regular" "2024-03-01",
                 bC7 "b2" "regular" "2024-03-02",
                 bC7 "b3" "deep" "2024-03-03"] }

/-- C7: the sweep counts every stale pending unassigned booking as
processed, processed = assigned + failed, a booking whose ranked
candidates are all rejected or unavailable yields a non-assigned
(`False`) outcome with no state change rather than an error, and the
concrete 3-booking sweep (2 assignable, 1 with no candidates) reports
processed = 3, assigned = 2, failed = 1. -/
theorem C7_sweep_stats :
    (∀ st now,
      (process_pending_jobs st now).1.jobs_processed = (stalePending st now).length ∧
      (process_pending_jobs st now).1.jobs_processed =
        (process_pending_jobs st now).1.jobs_assigned +
        (process_pending_jobs st now).1.jobs_failed) ∧
    (∀ (st : DB) (bid : String) (job : BookingDoc) (now : ℕ),
      (∀ c ∈ find_suitable_cleaners st job,
        st.rejections.any (fun r => r.doc_id == c.uid ++ "_" ++ bid) = true ∨
        is_cleaner_available_for_job st c.uid job = false) →
      auto_assign_job st bid job now = (false, st)) ∧
    (process_pending_jobs stC7 20000).1 = ⟨3, 2, 1⟩ := by
  refine ⟨?_, ?_, by rfl⟩
  · intro st now
    obtain ⟨h1, h2⟩ := sweepLoop_stats now (stalePending st now) st ⟨0, 0, 0⟩
    dsimp only at h1 h2
    unfold process_pending_jobs
    exact ⟨by omega, by omega⟩
  · intro st bid job now h
    unfold auto_assign_job
    dsimp only
    by_cases hs : (find_suitable_cleaners st job).isEmpty = true
    · rw [if_pos hs]
    · rw [if_neg hs, tryCandidates_all_skip st bid job now _ h]

/-- Witness instantiating the sweep theorem: the concrete sweep counts and
the exhausted-candidates booking `b3` reported as a failed outcome with
no state change. -/
theorem C7_sweep_stats_witness :
    ((process_pending_jobs stC7 20000).1.jobs_processed =
      (stalePending stC7 20000).length ∧
     (process_pending_jobs stC7 20000).1.jobs_processed =
      (process_pending_jobs stC7 20000).1.jobs_assigned +
      (process_pending_jobs stC7 20000).1.jobs_failed) ∧
    auto_assign_job stC7 "b3" (bC7 "b3" "deep" "2024-03-03") 20000 = (false, stC7) :=
  ⟨C7_sweep_stats.1 stC7 20000,
   C7_sweep_stats.2.1 stC7 "b3" (bC7 "b3" "deep" "2024-03-03") 20000 (by decide)⟩

/-! ### C8: idempotent manual reject -/

lemma reject_filter_nonempty {st : DB} {bid : String}
    (hb : ∃ b ∈ st.bookings, b.booking_id = bid ∧ b.status = "pending") :
    st.bookings.filter (fun b => b.booking_id == bid && b.status == "pending") ≠ [] := by
  obtain ⟨b, hmem, hid, hstat⟩ := hb
  intro hnil
  have hm : b ∈ st.bookings.filter
      (fun b => b.booking_id == bid && b.status == "pending") :=
    List.mem_filter.mpr ⟨hmem, by simp [hid, hstat]⟩
  rw [hnil] at hm
  cases hm

/-- The rejection record `reject_job` writes. -/
def rejRecord (bid cid : String) (t : ℕ) : Rejection :=
  { doc_id := cid ++ "_" ++ bid, cleaner_id := cid, booking_id := bid,
    rejected_at := t, reason := "cleaner_declined" }

lemma reject_job_eq (st : DB) (bid cid : String) (t : ℕ)
    (hb : ∃ b ∈ st.bookings, b.booking_id = bid ∧ b.status = "pending") :
    reject_job st bid cid t =
      (if st.rejections.any (fun r => r.doc_id == cid ++ "_" ++ bid)
       then (.alreadyRejected, st)
       else (.rejected,
         { st with rejections := st.rejections ++ [rejRecord bid cid t] })) := by
  unfold reject_job
  cases hfl : st.bookings.filter
      (fun b => b.booking_id == bid && b.status == "pending") with
  | nil => exact absurd hfl (reject_filter_nonempty hb)
  | cons x xs => rfl

/-- C8: given a pending booking (and the store invariant that Firestore
document ids are unique, so at most one record exists for the pair's
key), manual reject succeeds, never mutates the bookings collection,
leaves exactly one rejection record for the (cleaner, booking) pair, and
a second reject is a no-op success. -/
theorem C8_reject_idempotent :
    ∀ (st : DB) (bid cid : String) (t1 t2 : ℕ),
      (∃ b ∈ st.bookings, b.booking_id = bid ∧ b.status = "pending") →
      (st.rejections.filter (fun r => r.doc_id == cid ++ "_" ++ bid)).length ≤ 1 →
      ((reject_job st bid cid t1).1 = .rejected ∨
        (reject_job st bid cid t1).1 = .alreadyRejected) ∧
      (reject_job st bid cid t1).2.bookings = st.bookings ∧
      ((reject_job st bid cid t1).2.rejections.filter
        (fun r => r.doc_id == cid ++ "_" ++ bid)).length = 1 ∧
      (reject_job (reject_job st bid cid t1).2 bid cid t2).1 = .alreadyRejected ∧
      (reject_job (reject_job st bid cid t1).2 bid cid t2).2 =
        (reject_job st bid cid t1).2 := by
  intro st bid cid t1 t2 hb hcount
  have h1 := reject_job_eq st bid cid t1 hb
  by_cases hrej : st.rejections.any (fun r => r.doc_id == cid ++ "_" ++ bid) = true
  · rw [if_pos hrej] at h1
    have hlen : (st.rejections.filter
        (fun r => r.doc_id == cid ++ "_" ++ bid)).length = 1 := by
      obtain ⟨r, hrm, hrp⟩ := List.any_eq_true.mp hrej
      have : r ∈ st.rejections.filter (fun r => r.doc_id == cid ++ "_" ++ bid) :=
        List.mem_filter.mpr ⟨hrm, hrp⟩
      have hpos := List.length_pos.mpr (List.ne_nil_of_mem this)
      omega
    have h2 := reject_job_eq st bid cid t2 hb
    rw [if_pos hrej] at h2
    rw [h1]
    exact ⟨Or.inr rfl, rfl, hlen, by rw [h2], by rw [h2]⟩
  · rw [if_neg hrej] at h1
    rw [Bool.not_eq_true] at hrej
    have hfilternil : st.rejections.filter
        (fun r => r.doc_id == cid ++ "_" ++ bid) = [] := by
      rw [List.filter_eq_nil_iff]
      intro r hrm
      have := List.any_eq_false.mp hrej r hrm
      simpa using this
    set st1 : DB :=
      { st with rejections := st.rejections ++ [rejRecord bid cid t1] } with hst1
    have hb1 : ∃ b ∈ st1.bookings, b.booking_id = bid ∧ b.status = "pending" := hb
    have hany1 : st1.rejections.any
        (fun r => r.doc_id == cid ++ "_" ++ bid) = true := by
      rw [hst1]
      dsimp only
      rw [List.any_append]
      simp [rejRecord]
    have h2 := reject_job_eq st1 bid cid t2 hb1
    rw [if_pos hany1] at h2
    have hlen : (st1.rejections.filter
        (fun r => r.doc_id == cid ++ "_" ++ bid)).length = 1 := by
      rw [hst1]
      dsimp only
      rw [List.filter_append, hfilternil]
      simp [rejRecord]
    rw [h1]
    exact ⟨Or.inl rfl, rfl, hlen, by rw [h2], by rw [h2]⟩

/-- Concrete one-pending-booking store with no rejections. -/
def stC8 : DB :=
  { bookings := [{ booking_id := "b1", client_id := "u1", status := "pending" }] }

/-- Witness instantiating the reject-idempotence theorem on the concrete
store. -/
theorem C8_reject_idempotent_witness :
    ((reject_job stC8 "b1" "c1" 5).1 = .rejected ∨
      (reject_job stC8 "b1" "c1" 5).1 = .alreadyRejected) ∧
    (reject_job stC8 "b1" "c1" 5).2.bookings = stC8.bookings ∧
    ((reject_job stC8 "b1" "c1" 5).2.rejections.filter
      (fun r => r.doc_id == "c1" ++ "_" ++ "b1")).length = 1 ∧
    (reject_job (reject_job stC8 "b1" "c1" 5).2 "b1" "c1" 9).1 = .alreadyRejected ∧
    (reject_job (reject_job stC8 "b1" "c1" 5).2 "b1" "c1" 9).2 =
      (reject_job stC8 "b1" "c1" 5).2 :=
  C8_reject_idempotent stC8 "b1" "c1" 5 9
    ⟨{ booking_id := "b1", client_id := "u1", status := "pending" },
      by simp [stC8], rfl, rfl⟩
    (by simp [stC8])

/-! ### C4: cancellation -/

/-- Store holding one booking already cancelled by its client. -/
def stC4 : DB :=
  { bookings := [{ booking_id := "b1", client_id := "u1",
                   status := "cancelled_by_client" }] }

/-- Store holding one pending booking. -/
def stC4p : DB :=
  { bookings := [{ booking_id := "b1", client_id := "u1", status := "pending" }] }

/-- C4 counterexample: cancelling a booking whose status is already
`cancelled_by_client` succeeds (the guard only blocks `completed` and
`cancelled`), and an admin cancellation through `cancel_booking` yields
the plain `cancelled` status, not `cancelled_admin`. -/
theorem C4_counterexample :
    (cancel_booking stC4 "b1" "u1" "client" 7).1 = true ∧
    (cancel_booking stC4p "b1" "u1" "admin" 7).2.bookings.map BookingDoc.status =
      ["cancelled"] :=
  ⟨rfl, rfl⟩

/-- C4 amended: given an accessible booking, `cancel_booking` succeeds
exactly from `pending`, `confirmed`, `in_progress`, `cancelled_by_client`
or `cancelled_by_cleaner` (so re-cancelling a by-client/by-cleaner
cancelled booking succeeds, overwriting the variant); it fails leaving
the store unchanged from `completed`, `cancelled`, and any status string
outside the enum (in particular `cancelled_admin`, on which the status
conversion raises); on success the status becomes `cancelled_by_client`
for a client, `cancelled_by_cleaner` for a cleaner, and `cancelled` for
any other role. -/
theorem C4_cancel_statuses :
    ∀ (st : DB) (bid uid role : String) (now : ℕ) (b : BookingDoc),
      get_booking_by_id st bid uid role = some b →
      ((cancel_booking st bid uid role now).1 = true ↔
        b.status ∈ ["pending", "confirmed", "in_progress",
                    "cancelled_by_client", "cancelled_by_cleaner"]) ∧
      ((cancel_booking st bid uid role now).1 = false →
        (cancel_booking st bid uid role now).2 = st) ∧
      ((cancel_booking st bid uid role now).1 = true →
        ∀ b' ∈ (cancel_booking st bid uid role now).2.bookings,
          b'.booking_id = bid →
          b'.status = (if role = "client" then "cancelled_by_client"
                       else if role = "cleaner" then "cancelled_by_cleaner"
                       else "cancelled")) := by
  intro st bid uid role now b hget
  have hcancel : cancel_booking st bid uid role now =
      (if ¬ validStatuses.contains b.status then (false, st)
       else if b.status = "completed" ∨ b.status = "cancelled" then (false, st)
       else
         (true, updateBooking st bid (fun bb =>
           { bb with
             status := if role == "client" then "cancelled_by_client"
                       else if role == "cleaner" then "cancelled_by_cleaner"
                       else "cancelled",
             updated_at := now }))) := by
    unfold cancel_booking
    rw [hget]
  by_cases hvalid : validStatuses.contains b.status = true
  · rw [if_neg (not_not_intro hvalid)] at hcancel
    by_cases hterm : b.status = "completed" ∨ b.status = "cancelled"
    · rw [if_pos hterm] at hcancel
      rw [hcancel]
      dsimp only
      refine ⟨?_, fun _ => rfl, ?_⟩
      · refine iff_of_false (by simp) ?_
        rcases hterm with h | h <;> rw [h] <;> decide
      · intro hc; simp at hc
    · rw [if_neg hterm] at hcancel
      rw [hcancel]
      dsimp only
      refine ⟨?_, ?_, ?_⟩
      · have hmem : b.status ∈ ["pending", "confirmed", "in_progress",
            "cancelled_by_client", "cancelled_by_cleaner"] := by
          simp only [validStatuses] at hvalid
          simp at hvalid
          push_neg at hterm
          simp only [List.mem_cons, List.mem_singleton,
            List.not_mem_nil, or_false]
          tauto
        exact iff_of_true rfl hmem
      · intro hc; simp at hc
      · intro _ b' hb' hid
        unfold updateBooking at hb'
        simp only [List.mem_map] at hb'
        obtain ⟨a, ha, haeq⟩ := hb'
        by_cases hcond : a.booking_id == bid
        · rw [if_pos hcond] at haeq
          subst haeq
          dsimp only
          by_cases hr1 : role = "client"
          · simp [hr1]
          · by_cases hr2 : role = "cleaner"
            · simp [hr1, hr2]
            · simp [hr1, hr2]
        · rw [if_neg hcond] at haeq
          subst haeq
          exact absurd hid (by simpa using hcond)
  · rw [if_pos hvalid] at hcancel
    rw [hcancel]
    dsimp only
    refine ⟨?_, fun _ => rfl, ?_⟩
    · refine iff_of_false (by simp) ?_
      intro hmem
      apply hvalid
      simp only [validStatuses]
      simp
      simp only [List.mem_cons, List.mem_singleton, List.not_mem_nil,
        or_false] at hmem
      tauto
    · intro hc; simp at hc

/-- Witness instantiating the amended cancellation theorem: re-cancelling
the already-cancelled-by-client booking succeeds and sets
`cancelled_by_client` again. -/
theorem C4_cancel_statuses_witness :
    ((cancel_booking stC4 "b1" "u1" "client" 7).1 = true ↔
      ("cancelled_by_client" : String) ∈
        ["pending", "confirmed", "in_progress",
         "cancelled_by_client", "cancelled_by_cleaner"]) ∧
    ((cancel_booking stC4 "b1" "u1" "client" 7).1 = false →
      (cancel_booking stC4 "b1" "u1" "client" 7).2 = stC4) ∧
    ((cancel_booking stC4 "b1" "u1" "client" 7).1 = true →
      ∀ b' ∈ (cancel_booking stC4 "b1" "u1" "client" 7).2.bookings,
        b'.booking_id = "b1" →
        b'.status = (if ("client" : String) = "client" then "cancelled_by_client"
                     else if ("client" : String) = "cleaner" then "cancelled_by_cleaner"
                     else "cancelled")) :=
  C4_cancel_statuses stC4 "b1" "u1" "client" 7
    { booking_id := "b1", client_id := "u1", status := "cancelled_by_client" } rfl

/-! ### C2: assignment coupled with payment status -/

lemma tryCandidates_assign {st : DB} {bid : String} {job : BookingDoc} {now : ℕ}
    {l : List Candidate} {st₂ : DB}
    (h : tryCandidates st bid job now l = .ok (true, st₂)) :
    ∃ (c : Candidate) (pay : PayDict), job.payment = Raw.val pay ∧
      st₂ = updateBooking st bid
        (assignPatch c.uid
          (pay.status == some "succeeded" || job.status == "paid") now) := by
  induction l with
  | nil => simp [tryCandidates] at h
  | cons c rest ih =>
    unfold tryCandidates at h
    by_cases hrej : st.rejections.any (fun r => r.doc_id == c.uid ++ "_" ++ bid) = true
    · rw [if_pos hrej] at h
      exact ih h
    · rw [if_neg hrej] at h
      by_cases hav : is_cleaner_available_for_job st c.uid job = true
      · rw [if_pos hav] at h
        cases hp : job.payment with
        | corrupt =>
          rw [hp] at h
          simp [Raw.get?, bind, Except.bind] at h
        | val pay =>
          rw [hp] at h
          simp only [Raw.get?, bind, Except.bind] at h
          rw [Except.ok.injEq, Prod.ext_iff] at h
          exact ⟨c, pay, rfl, h.2.symm⟩
      · rw [if_neg hav] at h
        exact ih h

/-- C2: a manual accept of a still-pending unassigned booking with the
availability re-check passing, and a successful auto-assignment of a
pending job, both set `cleaner_id`, stamp `accepted_at` /
`auto_assigned_at`, and set status `confirmed` exactly when the payment
sub-record's status is `succeeded` at assignment time, leaving it
`pending` otherwise. -/
theorem C2_assignment_payment_coupling :
    (∀ (st : DB) (bid cid : String) (now : ℕ) (b : BookingDoc)
        (sch : SchedDict) (svc : SvcDict) (pay : PayDict),
      (st.bookings.filter (fun b => b.booking_id == bid &&
        b.status == "pending" && b.cleaner_id == none)).head? = some b →
      (∀ b' ∈ st.bookings, b'.booking_id = bid → b' = b) →
      b.schedule = Raw.val sch → b.service = Raw.val svc →
      b.payment = Raw.val pay →
      is_cleaner_available st cid sch.date sch.time (svc.duration.getD 2) = true →
      (accept_job st bid cid now).1 =
        .accepted (if pay.status == some "succeeded" then "confirmed"
                   else "pending") ∧
      (∀ b' ∈ (accept_job st bid cid now).2.bookings, b'.booking_id = bid →
        b'.cleaner_id = some cid ∧ b'.accepted_at = some now ∧
        b'.status = (if pay.status == some "succeeded" then "confirmed"
                     else "pending"))) ∧
    (∀ (st : DB) (bid : String) (job : BookingDoc) (now : ℕ) (pay : PayDict)
        (st₂ : DB),
      job.payment = Raw.val pay → job.status = "pending" →
      (∀ b' ∈ st.bookings, b'.booking_id = bid → b'.status = "pending") →
      auto_assign_job st bid job now = (true, st₂) →
      ∃ cid, ∀ b' ∈ st₂.bookings, b'.booking_id = bid →
        b'.cleaner_id = some cid ∧ b'.auto_assigned_at = some now ∧
        b'.status = (if pay.status == some "succeeded" then "confirmed"
                     else "pending")) := by
  constructor
  · intro st bid cid now b sch svc pay hhead huniq hsch hsvc hpay hav
    have hfl : ∃ tl, st.bookings.filter (fun b => b.booking_id == bid &&
        b.status == "pending" && b.cleaner_id == none) = b :: tl := by
      cases hf : st.bookings.filter (fun b => b.booking_id == bid &&
          b.status == "pending" && b.cleaner_id == none) with
      | nil => rw [hf] at hhead; cases hhead
      | cons x xs =>
        rw [hf] at hhead
        cases hhead
        exact ⟨xs, rfl⟩
    obtain ⟨tl, hfl⟩ := hfl
    have hbprops : b.booking_id = bid ∧ b.status = "pending" := by
      have hm : b ∈ st.bookings.filter (fun b => b.booking_id == bid &&
          b.status == "pending" && b.cleaner_id == none) := by
        rw [hfl]; exact List.mem_cons_self b tl
      have := (List.mem_filter.mp hm).2
      simp only [Bool.and_eq_true, beq_iff_eq] at this
      exact ⟨this.1.1, this.1.2⟩
    have hpaid : (pay.status == some "succeeded" || b.status == "paid") =
        (pay.status == some "succeeded") := by
      rw [hbprops.2]
      simp
    have haccept : accept_job st bid cid now =
        (.accepted (if pay.status == some "succeeded" then "confirmed"
                    else "pending"),
         { updateBooking st bid (fun bb =>
             { bb with cleaner_id := some cid, updated_at := now,
                       accepted_at := some now,
                       status := if pay.status == some "succeeded" then "confirmed"
                                 else bb.status }) with
           rejections := ((updateBooking st bid (fun bb =>
             { bb with cleaner_id := some cid, updated_at := now,
                       accepted_at := some now,
                       status := if pay.status == some "succeeded" then "confirmed"
                                 else bb.status })).rejections.filter
             (fun r => r.doc_id ≠ cid ++ "_" ++ bid)) }) := by
      unfold accept_job
      rw [hfl]
      dsimp only
      rw [hsch, hsvc]
      dsimp only [Raw.get?]
      rw [if_neg (by rw [hav]; simp)]
      rw [hpay]
      dsimp only [Raw.get?]
      rw [hpaid]
    rw [haccept]
    refine ⟨rfl, ?_⟩
    intro b' hb' hid
    dsimp only at hb'
    unfold updateBooking at hb'
    simp only [List.mem_map] at hb'
    obtain ⟨a, ha, haeq⟩ := hb'
    by_cases hcond : a.booking_id == bid
    · rw [if_pos hcond] at haeq
      have hab : a = b := huniq a ha (by simpa using hcond)
      subst haeq
      subst hab
      refine ⟨rfl, rfl, ?_⟩
      dsimp only
      by_cases hps : pay.status == some "succeeded"
      · rw [if_pos hps, if_pos hps]
      · rw [if_neg hps, if_neg hps]
        exact hbprops.2
    · rw [if_neg hcond] at haeq
      subst haeq
      exact absurd hid (by simpa using hcond)
  · intro st bid job now pay st₂ hpay hjstat hstored hassign
    unfold auto_assign_job at hassign
    by_cases hemp : (find_suitable_cleaners st job).isEmpty = true
    · rw [if_pos hemp] at hassign
      rw [Prod.ext_iff] at hassign
      simp at hassign
    · rw [if_neg hemp] at hassign
      cases htc : tryCandidates st bid job now (find_suitable_cleaners st job) with
      | error e =>
        rw [htc] at hassign
        rw [Prod.ext_iff] at hassign
        simp at hassign
      | ok r =>
        rw [htc] at hassign
        dsimp only at hassign
        rw [hassign] at htc
        obtain ⟨c, pay', hpay', hst₂⟩ := tryCandidates_assign htc
        rw [hpay] at hpay'
        have hpp : pay' = pay := by
          cases hpay'
          rfl
        rw [hpp] at hst₂
        refine ⟨c.uid, ?_⟩
        intro b' hb' hid
        rw [hst₂] at hb'
        unfold updateBooking at hb'
        simp only [List.mem_map] at hb'
        obtain ⟨a, ha, haeq⟩ := hb'
        by_cases hcond : a.booking_id == bid
        · rw [if_pos hcond] at haeq
          subst haeq
          have hastat : a.status = "pending" :=
            hstored a ha (by simpa using hcond)
          unfold assignPatch
          refine ⟨rfl, rfl, ?_⟩
          dsimp only
          rw [hjstat]
          simp only [show (("pending" : String) == "paid") = false from rfl,
            Bool.or_false]
          by_cases hps : pay.status == some "succeeded"
          · rw [if_pos hps, if_pos hps]
          · rw [if_neg hps, if_neg hps]
            exact hastat
        · rw [if_neg hcond] at haeq
          subst haeq
          exact absurd hid (by simpa using hcond)

/-- Concrete paid pending booking for the manual-accept clause. -/
def bC2 : BookingDoc :=
  { booking_id := "b1", client_id := "u1", status := "pending",
    schedule := .val { date := some "2024-05-01", time := some "10:00" },
    service := .val { type := some "regular", duration := some 2 },
    payment := .val { status := some "succeeded", amount := some 50 } }

/-- Store holding just the paid pending booking. -/
def stC2 : DB := { bookings := [bC2] }

/-- Store with one eligible cleaner and one unpaid stale pending booking,
for the auto-assignment clause. -/
def stC2a : DB :=
  { users := [{ uid := "c1", role := "cleaner",
                cleaner_profile := { services_offered := ["regular"],
                                     location := [("postcode", "SW1A 1AA")] } }],
    bookings := [bC7 "b1" "regular" "2024-03-01"] }

/-- Witness instantiating the payment-coupling theorem: accepting the paid
booking confirms it; auto-assigning the unpaid booking sets the cleaner
and leaves it pending. -/
theorem C2_assignment_payment_coupling_witness :
    ((accept_job stC2 "b1" "c1" 99).1 =
      .accepted (if (some "succeeded" : Option String) == some "succeeded"
                 then "confirmed" else "pending") ∧
     (∀ b' ∈ (accept_job stC2 "b1" "c1" 99).2.bookings, b'.booking_id = "b1" →
        b'.cleaner_id = some "c1" ∧ b'.accepted_at = some 99 ∧
        b'.status = (if (some "succeeded" : Option String) == some "succeeded"
                     then "confirmed" else "pending"))) ∧
    (∃ cid, ∀ b' ∈ (auto_assign_job stC2a "b1"
        (bC7 "b1" "regular" "2024-03-01") 99).2.bookings,
      b'.booking_id = "b1" →
      b'.cleaner_id = some cid ∧ b'.auto_assigned_at = some 99 ∧
      b'.status = (if (some "pending" : Option String) == some "succeeded"
                   then "confirmed" else "pending")) :=
  ⟨C2_assignment_payment_coupling.1 stC2 "b1" "c1" 99 bC2
      { date := some "2024-05-01", time := some "10:00" }
      { type := some "regular", duration := some 2 }
      { status := some "succeeded", amount := some 50 }
      rfl (by decide) rfl rfl rfl rfl,
   C2_assignment_payment_coupling.2 stC2a "b1" (bC7 "b1" "regular" "2024-03-01") 99
      { status := some "pending" }
      (auto_assign_job stC2a "b1" (bC7 "b1" "regular" "2024-03-01") 99).2
      rfl rfl (by decide) rfl⟩

/-! ### C1: the cleaner-id / status invariant -/

/-- Concrete pending unassigned booking whose payment is still pending. -/
def bC1 : BookingDoc :=
  { booking_id := "b1", client_id := "u1", status := "pending",
    schedule := .val { date := some "2024-05-01", time := some "10:00" },
    service := .val { type := some "regular", duration := some 2 },
    payment := .val { status := some "pending", amount := some 50 } }

/-- Store holding just the unpaid pending booking. -/
def stC1 : DB := { bookings := [bC1] }

/-- C1 counterexample: manually accepting an unpaid pending booking yields
a booking with `cleaner_id` set while its status is still `pending` —
the two-factor confirmation policy deliberately violates the claimed
invariant. -/
theorem C1_counterexample :
    (accept_job stC1 "b1" "c1" 50).1 = .accepted "pending" ∧
    (accept_job stC1 "b1" "c1" 50).2.bookings.map
      (fun b => (b.cleaner_id, b.status)) = [(some "c1", "pending")] :=
  ⟨rfl, rfl⟩

/-- The cancelled status strings the repository writes. -/
def cancelledStatuses : List String :=
  ["cancelled", "cancelled_by_client", "cancelled_by_cleaner", "cancelled_admin"]

/-- Amended per-booking invariant: an assigned booking is confirmed, in
progress or completed, or still pending with a payment that has not
succeeded (assigned-but-unpaid), or cancelled (cancellation preserves the
assignment). -/
def Inv (b : BookingDoc) : Prop :=
  b.cleaner_id ≠ none →
    b.status ∈ ["confirmed", "in_progress", "completed"] ∨
    (b.status = "pending" ∧ payStatus b ≠ some "succeeded") ∨
    b.status ∈ cancelledStatuses

/-- The invariant over all stored bookings. -/
def InvAll (st : DB) : Prop := ∀ b ∈ st.bookings, Inv b

/-- Store invariant: Firestore document ids are unique. -/
def NoDupIds (st : DB) : Prop :=
  st.bookings.Pairwise (fun a b => a.booking_id ≠ b.booking_id)

lemma nodup_unique {st : DB} (h : NoDupIds st) {a b : BookingDoc}
    (ha : a ∈ st.bookings) (hb : b ∈ st.bookings)
    (hid : a.booking_id = b.booking_id) : a = b := by
  by_cases hab : a = b
  · exact hab
  · have hsym : Symmetric (fun x y : BookingDoc => x.booking_id ≠ y.booking_id) :=
      fun x y hxy => hxy.symm
    exact absurd hid (List.Pairwise.forall hsym h ha hb hab)

lemma invAll_updateBooking {st : DB} {bid : String} {f : BookingDoc → BookingDoc}
    (h : InvAll st)
    (hf : ∀ a ∈ st.bookings, a.booking_id = bid → Inv (f a)) :
    InvAll (updateBooking st bid f) := by
  intro b' hb'
  unfold updateBooking at hb'
  simp only [List.mem_map] at hb'
  obtain ⟨a, ha, haeq⟩ := hb'
  by_cases hcond : a.booking_id == bid
  · rw [if_pos hcond] at haeq
    subst haeq
    exact hf a ha (by simpa using hcond)
  · rw [if_neg hcond] at haeq
    subst haeq
    exact h a ha

lemma tryCandidates_fail {st : DB} {bid : String} {job : BookingDoc} {now : ℕ}
    {l : List Candidate} {st₂ : DB}
    (h : tryCandidates st bid job now l = .ok (false, st₂)) : st₂ = st := by
  induction l with
  | nil =>
    unfold tryCandidates at h
    rw [Except.ok.injEq, Prod.ext_iff] at h
    exact h.2.symm
  | cons c rest ih =>
    unfold tryCandidates at h
    by_cases hrej : st.rejections.any (fun r => r.doc_id == c.uid ++ "_" ++ bid) = true
    · rw [if_pos hrej] at h
      exact ih h
    · rw [if_neg hrej] at h
      by_cases hav : is_cleaner_available_for_job st c.uid job = true
      · rw [if_pos hav] at h
        cases hp : job.payment with
        | corrupt =>
          rw [hp] at h
          simp [Raw.get?, bind, Except.bind] at h
        | val pay =>
          rw [hp] at h
          simp only [Raw.get?, bind, Except.bind] at h
          rw [Except.ok.injEq, Prod.ext_iff] at h
          exact absurd h.1.symm (by simp)
      · rw [if_neg hav] at h
        exact ih h

/-- C1 amended: the five core operations preserve the corrected
invariant: a booking with `cleaner_id` set is confirmed, in progress or
completed, or still `pending` with a payment that has not succeeded
(the documented assigned-but-unpaid state), or cancelled (cancellation
preserves `cleaner_id`).  The `NoDupIds` hypotheses are the document
store's id-uniqueness. -/
theorem C1_assigned_status_invariant :
    (∀ (st : DB) (cid : String) (data : BookingCreate) (nid : String) (now : ℕ),
      InvAll st → InvAll (create_booking st cid data nid now).2) ∧
    (∀ (st : DB) (bid cid : String) (now : ℕ),
      NoDupIds st → InvAll st → InvAll (accept_job st bid cid now).2) ∧
    (∀ (st : DB) (bid : String) (job : BookingDoc) (now : ℕ),
      NoDupIds st → job ∈ st.bookings → job.booking_id = bid →
      job.status = "pending" →
      InvAll st → InvAll (auto_assign_job st bid job now).2) ∧
    (∀ (st : DB) (bid uid role : String) (now : ℕ),
      InvAll st → InvAll (cancel_booking st bid uid role now).2) ∧
    (∀ (st : DB) (bid cid : String) (now : ℕ),
      InvAll st → InvAll (complete_job st bid cid now).2) := by
  refine ⟨?_, ?_, ?_, ?_, ?_⟩
  · intro st cid data nid now h
    unfold create_booking
    cases hf : st.users.find? (fun u => u.uid == cid) with
    | none => exact h
    | some client =>
      dsimp only
      by_cases hr : client.role ≠ "client"
      · rw [if_pos hr]; exact h
      · rw [if_neg hr]
        intro b hb
        dsimp only at hb
        rcases List.mem_append.mp hb with hold | hnew
        · exact h b hold
        · rw [List.mem_singleton] at hnew
          subst hnew
          intro hc
          exact absurd rfl hc
  · intro st bid cid now hnd h
    unfold accept_job
    cases hfl : st.bookings.filter (fun b => b.booking_id == bid &&
        b.status == "pending" && b.cleaner_id == none) with
    | nil => exact h
    | cons b tl =>
      have hm : b ∈ st.bookings.filter (fun b => b.booking_id == bid &&
          b.status == "pending" && b.cleaner_id == none) := by
        rw [hfl]; exact List.mem_cons_self b tl
      have hbmem := (List.mem_filter.mp hm).1
      have hbprops := (List.mem_filter.mp hm).2
      simp only [Bool.and_eq_true, beq_iff_eq] at hbprops
      obtain ⟨⟨hbid, hbstat⟩, -⟩ := hbprops
      dsimp only
      cases hsch : b.schedule with
      | corrupt =>
        cases hsvc : b.service <;> dsimp only [Raw.get?] <;> exact h
      | val sch =>
        cases hsvc : b.service with
        | corrupt => dsimp only [Raw.get?]; exact h
        | val svc =>
          dsimp only [Raw.get?]
          by_cases hav : is_cleaner_available st cid sch.date sch.time
              (svc.duration.getD 2) = true
          · rw [if_neg (fun hc => hc hav)]
            cases hpayc : b.payment with
            | corrupt => dsimp only [Raw.get?]; exact h
            | val pay =>
              dsimp only [Raw.get?]
              intro b2 hb2
              refine invAll_updateBooking h ?_ b2 hb2
              intro a ha haid
              have hab : a = b := nodup_unique hnd ha hbmem (haid.trans hbid.symm)
              subst hab
              unfold Inv
              dsimp only
              intro _
              by_cases hpaid : (pay.status == some "succeeded" ||
                  a.status == "paid") = true
              · rw [if_pos hpaid]
                left
                simp
              · rw [if_neg hpaid]
                right; left
                rw [Bool.or_eq_true] at hpaid
                push_neg at hpaid
                refine ⟨hbstat, ?_⟩
                unfold payStatus
                dsimp only
                rw [hpayc]
                dsimp only
                exact fun hcontra => hpaid.1 (by rw [hcontra]; simp)
          · rw [if_pos hav]
            exact h
  · intro st bid job now hnd hjm hjid hjstat h
    unfold auto_assign_job
    by_cases hemp : (find_suitable_cleaners st job).isEmpty = true
    · rw [if_pos hemp]; exact h
    · rw [if_neg hemp]
      cases htc : tryCandidates st bid job now (find_suitable_cleaners st job) with
      | error e => exact h
      | ok r =>
        dsimp only
        rcases r with ⟨flag, st2⟩
        cases flag
        · rw [show st2 = st from tryCandidates_fail htc]
          exact h
        · obtain ⟨c, pay, hpay, hst2⟩ := tryCandidates_assign htc
          dsimp only
          rw [hst2]
          intro b2 hb2
          refine invAll_updateBooking h ?_ b2 hb2
          intro a ha haid
          have hab : a = job := nodup_unique hnd ha hjm (haid.trans hjid.symm)
          rw [hab]
          unfold assignPatch Inv
          dsimp only
          intro _
          by_cases hpaid : (pay.status == some "succeeded" ||
              job.status == "paid") = true
          · rw [if_pos hpaid]
            left
            simp
          · rw [if_neg hpaid]
            right; left
            rw [Bool.or_eq_true] at hpaid
            push_neg at hpaid
            refine ⟨hjstat, ?_⟩
            unfold payStatus
            dsimp only
            rw [hpay]
            dsimp only
            exact fun hcontra => hpaid.1 (by rw [hcontra]; simp)
  · intro st bid uid role now h
    unfold cancel_booking
    cases hget : get_booking_by_id st bid uid role with
    | none => exact h
    | some b =>
      dsimp only
      by_cases hvalid : ¬ validStatuses.contains b.status = true
      · rw [if_pos hvalid]; exact h
      · rw [if_neg hvalid]
        by_cases hterm : b.status = "completed" ∨ b.status = "cancelled"
        · rw [if_pos hterm]; exact h
        · rw [if_neg hterm]
          intro b2 hb2
          refine invAll_updateBooking h ?_ b2 hb2
          intro a ha haid
          unfold Inv
          dsimp only
          intro _
          right; right
          by_cases hr1 : (role == "client") = true
          · rw [if_pos hr1]; simp [cancelledStatuses]
          · rw [if_neg hr1]
            by_cases hr2 : (role == "cleaner") = true
            · rw [if_pos hr2]; simp [cancelledStatuses]
            · rw [if_neg hr2]; simp [cancelledStatuses]
  · intro st bid cid now h
    unfold complete_job
    cases hfl : st.bookings.filter (fun b => b.booking_id == bid &&
        b.cleaner_id == some cid) with
    | nil => exact h
    | cons b tl =>
      dsimp only
      by_cases hstat : b.status ≠ "confirmed" ∧ b.status ≠ "in_progress"
      · rw [if_pos hstat]; exact h
      · rw [if_neg hstat]
        intro b2 hb2
        refine invAll_updateBooking h ?_ b2 hb2
        intro a ha haid
        unfold Inv
        dsimp only
        intro _
        left
        simp

/-- Witness instantiating the amended invariant theorem: accepting the
unpaid pending booking and re-cancelling the cancelled booking both land
in states satisfying the corrected invariant. -/
theorem C1_assigned_status_invariant_witness :
    InvAll (accept_job stC1 "b1" "c1" 50).2 ∧
    InvAll (cancel_booking stC4 "b1" "u1" "client" 7).2 :=
  ⟨C1_assigned_status_invariant.2.1 stC1 "b1" "c1" 50
      (by unfold NoDupIds; decide) (by unfold InvAll Inv; decide),
   C1_assigned_status_invariant.2.2.2.1 stC4 "b1" "u1" "client" 7
      (by unfold InvAll Inv; decide)⟩

end CAAS
